import Mathlib

/-!
# Verification of the nostrcal calendar core

Shallow embedding of the NIP-52 calendar layer of the nostrcal repository:
the validators, the raw-event/domain-object codec, the RSVP serializer and
the query-planner pipelines (upcoming pagination, date-range filtering,
search dedup).  JavaScript runtime builtins that the code relies on
(parseInt, Number.toString, Date parsing of date-only strings, Map
insertion semantics, Array.sort) are modelled explicitly; each model is
documented at its definition.
-/

set_option maxRecDepth 4000

/-- A raw Nostr protocol event as consumed by the calendar code.  The
signature field of the wire type is omitted: no function in the embedded
code ever reads it. -/
structure NostrEvent where
  id : String
  pubkey : String
  created_at : Int
  kind : Nat
  tags : List (List String)
  content : String
deriving Repr, DecidableEq

/-- JavaScript truthiness of a string: only the empty string is falsy. -/
def strTruthy (s : String) : Bool := s ≠ ""

/-- JavaScript truthiness of an optional string value: undefined and the
empty string are falsy. -/
def optTruthy (o : Option String) : Bool :=
  match o with
  | some s => s ≠ ""
  | none => false

/-- JavaScript truthiness of an optional number: undefined, 0 and NaN are
falsy (NaN is represented as absence by the callers of this model). -/
def optIntTruthy (o : Option Int) : Bool :=
  match o with
  | some n => n ≠ 0
  | none => false

/-- Lookup of the first tag whose first element equals the key, returning
its second element; models tags.find(tag => tag[0] === name)?.[1]. -/
def findTagValue (tags : List (List String)) (tagName : String) : Option String :=
  (tags.find? (fun tag => tag.head? = some tagName)).bind (fun tag => tag.get? 1)

/-- getTagValue from the repository: first value of the named tag. -/
def getTagValue (event : NostrEvent) (tagName : String) : Option String :=
  findTagValue event.tags tagName

/-- All second elements of tags with the given name, in order; models
tags.filter(tag => tag[0] === name).map(tag => tag[1]).  A tag of length 1
would carry undefined in JavaScript; that edge is represented by the empty
string and is never exercised by the claims. -/
def findTagValues (tags : List (List String)) (tagName : String) : List String :=
  (tags.filter (fun tag => tag.head? = some tagName)).map (fun tag => (tag.get? 1).getD "")

/-- getTagValues from the repository. -/
def getTagValues (event : NostrEvent) (tagName : String) : List String :=
  findTagValues event.tags tagName

/-- ASCII digit test, the \d class of the JavaScript regexes used here. -/
def isAsciiDigit (c : Char) : Bool := 48 ≤ c.toNat && c.toNat ≤ 57

/-- Whitespace skipped by JavaScript parseInt (ASCII portion; the claims
never feed exotic Unicode whitespace). -/
def isJsSpace (c : Char) : Bool :=
  c.toNat = 32 || c.toNat = 9 || c.toNat = 10 || c.toNat = 13 || c.toNat = 11 || c.toNat = 12

/-- Numeric value of an ASCII digit character. -/
def digitVal (c : Char) : Nat := c.toNat - 48

/-- Longest prefix of decimal digits, as a number; none when there is no
leading digit (parseInt yields NaN then). -/
def parseDigits (cs : List Char) : Option Nat :=
  let ds := cs.takeWhile isAsciiDigit
  if ds.isEmpty then none
  else some (ds.foldl (fun a c => 10 * a + digitVal c) 0)

/-- Hexadecimal digit test. -/
def isHexDigitChar (c : Char) : Bool :=
  isAsciiDigit c || (97 ≤ c.toNat && c.toNat ≤ 102) || (65 ≤ c.toNat && c.toNat ≤ 70)

/-- Hexadecimal value of a hex digit character. -/
def hexVal (c : Char) : Nat :=
  if isAsciiDigit c then c.toNat - 48
  else if 97 ≤ c.toNat then c.toNat - 87
  else c.toNat - 55

/-- Longest prefix of hex digits, as a number; none when empty. -/
def parseHexDigits (cs : List Char) : Option Nat :=
  let ds := cs.takeWhile isHexDigitChar
  if ds.isEmpty then none
  else some (ds.foldl (fun a c => 16 * a + hexVal c) 0)

/-- Magnitude part of parseInt after the optional sign: a 0x or 0X prefix
switches to base 16, otherwise the longest decimal digit prefix is read. -/
def parseIntNoSign (cs : List Char) : Option Nat :=
  match cs with
  | c0 :: c1 :: rest =>
    if c0 = '0' && (c1 = 'x' || c1 = 'X') then parseHexDigits rest
    else parseDigits cs
  | _ => parseDigits cs

/-- Model of JavaScript parseInt(s) with no radix argument: skip leading
whitespace, read an optional sign, honour a hex prefix, then take the
longest digit prefix; none models NaN.  Values are exact integers (the
float rounding of huge literals is out of scope for the embedded code). -/
def jsParseInt (s : String) : Option Int :=
  match s.data.dropWhile isJsSpace with
  | [] => none
  | c :: rest =>
    if c = '-' then (parseIntNoSign rest).map (fun n => -(n : Int))
    else if c = '+' then (parseIntNoSign rest).map (fun n => (n : Int))
    else (parseIntNoSign (c :: rest)).map (fun n => (n : Int))

/-- Decimal digits of a natural number, most significant first; fuel-based
so that concrete evaluation reduces definitionally. -/
def natToCharsAux : Nat → Nat → List Char
  | 0, _ => []
  | fuel + 1, n =>
    if n < 10 then [Nat.digitChar n]
    else natToCharsAux fuel (n / 10) ++ [Nat.digitChar (n % 10)]

/-- Decimal digit string of a natural number. -/
def natToChars (n : Nat) : List Char := natToCharsAux (n + 1) n

/-- Model of JavaScript Number.prototype.toString for the integers this
code stringifies (timestamps): plain decimal with a leading minus sign for
negatives. -/
def jsNumToString (i : Int) : String :=
  if i < 0 then ⟨'-' :: natToChars i.natAbs⟩ else ⟨natToChars i.toNat⟩

/-- The regex test for dates used by the validator: ten characters shaped
dddd-dd-dd. -/
def dateRegexTest (s : String) : Bool :=
  match s.data with
  | [y1, y2, y3, y4, h1, m1, m2, h2, d1, d2] =>
    h1 = '-' && h2 = '-' && [y1, y2, y3, y4, m1, m2, d1, d2].all isAsciiDigit
  | _ => false

/-- Lexicographic code-unit comparison of character lists, the order
JavaScript uses for its string relational operators. -/
def charListLt : List Char → List Char → Bool
  | [], [] => false
  | [], _ :: _ => true
  | _ :: _, [] => false
  | a :: as, b :: bs =>
    if a.toNat < b.toNat then true
    else if b.toNat < a.toNat then false
    else charListLt as bs

/-- Model of the JavaScript string less-than operator. -/
def strLtb (a b : String) : Bool := charListLt a.data b.data

/-- Model of the JavaScript string less-or-equal operator. -/
def strLeb (a b : String) : Bool := !strLtb b a

/-- Participant info extracted from p tags. -/
structure ParticipantInfo where
  pubkey : String
  relayUrl : Option String
  role : Option String
deriving Repr, DecidableEq

/-- The kind-specific part of a calendar event: a date-based event (kind
31922) carries date strings, a time-based event (kind 31923) carries Unix
second timestamps plus optional timezone identifiers. -/
inductive EventTiming where
  | dateBased (start : String) (end_ : Option String)
  | timeBased (start : Int) (end_ : Option Int)
      (start_tzid : Option String) (end_tzid : Option String)
deriving Repr, DecidableEq

/-- The structured calendar event domain object; the union of the
DateBasedCalendarEvent and TimeBasedCalendarEvent interfaces, with the
kind discriminator folded into the timing sum. -/
structure CalendarEvent where
  id : String
  pubkey : String
  created_at : Int
  content : String
  tags : List (List String)
  d : String
  title : String
  summary : Option String
  image : Option String
  locations : List String
  geohash : Option String
  participants : List ParticipantInfo
  hashtags : List String
  references : List String
  calendarRefs : List String
  timing : EventTiming
deriving Repr, DecidableEq

/-- The numeric kind of a calendar event, recovered from the timing sum. -/
def CalendarEvent.kind (e : CalendarEvent) : Nat :=
  match e.timing with
  | .dateBased _ _ => 31922
  | .timeBased _ _ _ _ => 31923

/-- isDateBasedEvent from the repository. -/
def isDateBasedEvent (e : CalendarEvent) : Bool := e.kind = 31922

/-- isTimeBasedEvent from the repository. -/
def isTimeBasedEvent (e : CalendarEvent) : Bool := e.kind = 31923

/-- The end of a time-based event, absent for date-based events. -/
def CalendarEvent.timeEnd (e : CalendarEvent) : Option Int :=
  match e.timing with
  | .dateBased _ _ => none
  | .timeBased _ en _ _ => en

/-- parseCalendarEvent from the repository: convert a raw event into a
structured calendar event or fail with none (null).  JavaScript
truthiness governs the required-field checks; for time-based events the
end value survives only when it parses to a nonzero number (parseInt NaN
and the value 0 are both falsy, hence dropped). -/
def parseCalendarEvent (event : NostrEvent) : Option CalendarEvent :=
  if event.kind ≠ 31922 && event.kind ≠ 31923 then none
  else
    let d := getTagValue event "d"
    let title := getTagValue event "title"
    let start := getTagValue event "start"
    if !optTruthy d || !optTruthy title || !optTruthy start then none
    else
      let base : EventTiming → CalendarEvent := fun timing =>
        { id := event.id
          pubkey := event.pubkey
          created_at := event.created_at
          content := event.content
          tags := event.tags
          d := d.getD ""
          title := title.getD ""
          summary := getTagValue event "summary"
          image := getTagValue event "image"
          locations := getTagValues event "location"
          geohash := getTagValue event "g"
          participants := event.tags.filter (fun tag => tag.head? = some "p")
            |>.map (fun tag =>
              { pubkey := (tag.get? 1).getD ""
                relayUrl := tag.get? 2
                role := tag.get? 3 })
          hashtags := getTagValues event "t"
          references := getTagValues event "r"
          calendarRefs := getTagValues event "a"
          timing := timing }
      if event.kind = 31922 then
        some (base (.dateBased (start.getD "") (getTagValue event "end")))
      else
        match jsParseInt (start.getD "") with
        | none => none
        | some startTime =>
          let endStr := getTagValue event "end"
          let endNum : Option Int :=
            if optTruthy endStr then jsParseInt (endStr.getD "") else none
          let endVal : Option Int :=
            match endNum with
            | some v => if v = 0 then none else some v
            | none => none
          some (base (.timeBased startTime endVal
            (getTagValue event "start_tzid") (getTagValue event "end_tzid")))

/-- A partial raw event as produced by the serializers: kind, content and
tags; id, pubkey, created_at and the signature are supplied externally. -/
structure PartialNostrEvent where
  kind : Nat
  content : String
  tags : List (List String)
deriving Repr, DecidableEq

/-- A tag pushed only when its optional value is truthy (present and
non-empty), as the serializer's if guards do. -/
def optTag (name : String) (o : Option String) : List (List String) :=
  match o with
  | some s => if s = "" then [] else [[name, s]]
  | none => []

/-- A positional extra element pushed only when truthy. -/
def optVal (o : Option String) : List String :=
  match o with
  | some s => if s = "" then [] else [s]
  | none => []

/-- The p tag built for one participant: pubkey, then relayUrl if truthy,
then role if truthy (positions shift left when relayUrl is absent). -/
def pTag (participant : ParticipantInfo) : List String :=
  ["p", participant.pubkey] ++ optVal participant.relayUrl ++ optVal participant.role

/-- The common tag block built by serializeCalendarEvent before the
kind-specific tags: d, title, optional summary and image, locations,
optional geohash, participants, hashtags, references, calendar refs. -/
def commonTags (e : CalendarEvent) : List (List String) :=
  [["d", e.d], ["title", e.title]]
    ++ optTag "summary" e.summary
    ++ optTag "image" e.image
    ++ e.locations.map (fun location => ["location", location])
    ++ optTag "g" e.geohash
    ++ e.participants.map pTag
    ++ e.hashtags.map (fun hashtag => ["t", hashtag])
    ++ e.references.map (fun reference => ["r", reference])
    ++ e.calendarRefs.map (fun calRef => ["a", calRef])

/-- The kind-specific tags appended by serializeCalendarEvent: for a
date-based event start and a truthy end; for a time-based event the
stringified start, the stringified end whenever it is not undefined, and
truthy timezone identifiers. -/
def timingTags : EventTiming → List (List String)
  | .dateBased s en =>
    [["start", s]] ++ optTag "end" en
  | .timeBased s en stz etz =>
    [["start", jsNumToString s]] ++ (match en with
      | some v => [["end", jsNumToString v]]
      | none => [])
      ++ optTag "start_tzid" stz
      ++ optTag "end_tzid" etz

/-- serializeCalendarEvent from the repository. -/
def serializeCalendarEvent (e : CalendarEvent) : PartialNostrEvent :=
  { kind := e.kind
    content := e.content
    tags := commonTags e ++ timingTags e.timing }

/-- Merge the externally supplied id, pubkey and creation time into a
serialized partial event, yielding a full raw event. -/
def mergePartial (pe : PartialNostrEvent) (id pubkey : String) (created_at : Int) :
    NostrEvent :=
  { id := id
    pubkey := pubkey
    created_at := created_at
    kind := pe.kind
    tags := pe.tags
    content := pe.content }

/-- RSVP attendance status. -/
inductive RSVPStatus where
  | accepted
  | declined
  | tentative
deriving Repr, DecidableEq

/-- Wire value of an RSVP status. -/
def RSVPStatus.toTagValue : RSVPStatus → String
  | .accepted => "accepted"
  | .declined => "declined"
  | .tentative => "tentative"

/-- Free or busy indicator. -/
inductive FreeBusy where
  | free
  | busy
deriving Repr, DecidableEq

/-- Wire value of a free/busy indicator. -/
def FreeBusy.toTagValue : FreeBusy → String
  | .free => "free"
  | .busy => "busy"

/-- The CalendarEventRSVP domain object. -/
structure CalendarEventRSVP where
  id : String
  pubkey : String
  created_at : Int
  content : String
  eventCoordinates : String
  eventId : Option String
  d : String
  status : RSVPStatus
  freebusy : Option FreeBusy
  authorPubkey : Option String
deriving Repr, DecidableEq

/-- serializeCalendarRSVP from the repository: a-tag, d, status, then an
e-tag for a truthy event id, an fb-tag for a supplied free/busy value
unless the status is declined, and a p-tag for a truthy original-author
pubkey. -/
def serializeCalendarRSVP (rsvp : CalendarEventRSVP) : PartialNostrEvent :=
  { kind := 31925
    content := rsvp.content
    tags :=
      [["a", rsvp.eventCoordinates], ["d", rsvp.d], ["status", rsvp.status.toTagValue]]
        ++ (match rsvp.eventId with
            | some s => if s = "" then [] else [["e", s]]
            | none => [])
        ++ (match rsvp.freebusy with
            | some fb => if rsvp.status = .declined then [] else [["fb", fb.toTagValue]]
            | none => [])
        ++ (match rsvp.authorPubkey with
            | some s => if s = "" then [] else [["p", s]]
            | none => []) }

/-- validateCalendarEvent from the repository.  The runtime timezone
database behind isValidTimeZone is an external integration point of the
program, so it enters the embedding as the explicit predicate tzOk. -/
def validateCalendarEvent (tzOk : String → Bool) (event : NostrEvent) : Bool :=
  if !(event.kind = 31922 || event.kind = 31923) then false
  else
    let d := getTagValue event "d"
    let title := getTagValue event "title"
    let start := getTagValue event "start"
    if !optTruthy d || !optTruthy title || !optTruthy start then false
    else
      let start := start.getD ""
      if event.kind = 31922 then
        if !dateRegexTest start then false
        else
          let end_ := getTagValue event "end"
          if optTruthy end_ then
            let en := end_.getD ""
            if !dateRegexTest en then false
            else strLtb start en
          else true
      else
        match jsParseInt start with
        | none => false
        | some timestamp =>
          if timestamp ≤ 0 then false
          else
            let endStr := getTagValue event "end"
            let endOk :=
              if optTruthy endStr then
                match jsParseInt (endStr.getD "") with
                | none => false
                | some endTime =>
                  if endTime ≤ 0 then false
                  else decide (timestamp < endTime)
              else true
            if !endOk then false
            else
              let start_tzid := getTagValue event "start_tzid"
              if optTruthy start_tzid && !tzOk (start_tzid.getD "") then false
              else
                let end_tzid := getTagValue event "end_tzid"
                if optTruthy end_tzid && !tzOk (end_tzid.getD "") then false
                else true

/-- validateCalendar from the repository. -/
def validateCalendar (event : NostrEvent) : Bool :=
  if event.kind ≠ 31924 then false
  else optTruthy (getTagValue event "d") && optTruthy (getTagValue event "title")

/-- validateCalendarEventRSVP from the repository.  The function is not
total in JavaScript: when the first a tag has no second element, aTag[1]
is undefined and calling split on it raises a TypeError; that control
path is modelled by the error branch. -/
def validateCalendarEventRSVP (event : NostrEvent) : Except String Bool :=
  if event.kind ≠ 31925 then .ok false
  else
    let d := getTagValue event "d"
    let status := getTagValue event "status"
    let aTag := event.tags.find? (fun tag => tag.head? = some "a")
    if !optTruthy d || !optTruthy status || aTag.isNone then .ok false
    else
      let statusVal := status.getD ""
      if !(statusVal = "accepted" || statusVal = "declined" || statusVal = "tentative") then
        .ok false
      else if statusVal = "declined" &&
          (event.tags.find? (fun tag => tag.head? = some "fb")).isSome then
        .ok false
      else
        let fbValue := getTagValue event "fb"
        if optTruthy fbValue && !((fbValue.getD "") = "free" || (fbValue.getD "") = "busy") then
          .ok false
        else
          match (aTag.getD []).get? 1 with
          | none => .error "TypeError: aValue is undefined"
          | some aValue =>
            let aParts := aValue.splitOn ":"
            if aParts.length < 3 then .ok false
            else
              match jsParseInt ((aParts.get? 0).getD "") with
              | none => .ok false
              | some k => .ok (k = 31922 || k = 31923)

/-- Model of the external relay collaborator's query operation (one filter
object): events matching one of the kinds and, when an until cursor is
set, created at or before it, capped at the limit.  The store is assumed
to hold events newest-first, the order relays return them in. -/
def relayQuery (db : List NostrEvent) (kinds : List Nat) (limit : Nat)
    (untilTs : Option Int) : List NostrEvent :=
  (db.filter (fun e => kinds.contains e.kind &&
    match untilTs with
    | some u => decide (e.created_at ≤ u)
    | none => true)).take limit

/-- Gregorian leap year. -/
def isLeapYear (y : Int) : Bool := (y % 4 = 0 && y % 100 ≠ 0) || y % 400 = 0

/-- Days in a Gregorian month. -/
def daysInMonth (y m : Int) : Int :=
  if m = 2 then (if isLeapYear y then 29 else 28)
  else if m = 4 || m = 6 || m = 9 || m = 11 then 30
  else 31

/-- Days from the Unix epoch to the given civil date (standard
era-based Gregorian day-count algorithm). -/
def daysFromCivil (y m d : Int) : Int :=
  let y2 := if m ≤ 2 then y - 1 else y
  let era := (if 0 ≤ y2 then y2 else y2 - 399) / 400
  let yoe := y2 - era * 400
  let mp := (m + 9) % 12
  let doy := (153 * mp + 2) / 5 + d - 1
  let doe := yoe * 365 + yoe / 4 - yoe / 100 + doy
  era * 146097 + doe - 719468

/-- Model of new Date(s).getTime() / 1000 for the strings this code feeds
to it.  ECMAScript parses a date-only YYYY-MM-DD string as midnight UTC;
out-of-range month or day fields give an invalid date (none models NaN).
The embedded flows only reach this with validator-approved dddd-dd-dd
strings, which this model covers exactly. -/
def jsDateParse (s : String) : Option Int :=
  match s.data with
  | [y1, y2, y3, y4, h1, m1, m2, h2, d1, d2] =>
    if h1 = '-' && h2 = '-' && [y1, y2, y3, y4, m1, m2, d1, d2].all isAsciiDigit then
      let y : Int := ((1000 * digitVal y1 + 100 * digitVal y2 + 10 * digitVal y3 + digitVal y4 : Nat) : Int)
      let mo : Int := ((10 * digitVal m1 + digitVal m2 : Nat) : Int)
      let da : Int := ((10 * digitVal d1 + digitVal d2 : Nat) : Int)
      if 1 ≤ mo && mo ≤ 12 && 1 ≤ da && da ≤ daysInMonth y mo then
        some (86400 * daysFromCivil y mo da)
      else none
    else none
  | _ => none

/-- Sign of String.prototype.localeCompare for the ASCII date strings
compared here: code-unit order. -/
def strCompareSign (a b : String) : Int :=
  if strLtb a b then -1 else if strLtb b a then 1 else 0

/-- The sort comparator of the upcoming-events pipeline.  Two time-based
events compare by start timestamp, two date-based events by string
comparison of start dates, and a mixed pair converts the date-based start
through Date parsing (midnight UTC) and compares numerically.  When that
conversion fails the JavaScript comparator returns NaN, which Array.sort
treats as 0; the model returns 0 directly. -/
def upcomingCompare (a b : CalendarEvent) : Int :=
  match a.timing, b.timing with
  | .timeBased sa _ _ _, .timeBased sb _ _ _ => sa - sb
  | .dateBased sa _, .dateBased sb _ => strCompareSign sa sb
  | .dateBased sa _, .timeBased sb _ _ _ =>
    match jsDateParse sa with
    | some t => t - sb
    | none => 0
  | .timeBased sa _ _ _, .dateBased sb _ =>
    match jsDateParse sb with
    | some t => sa - t
    | none => 0

/-- Model of Array.prototype.sort with a comparator: the stable sort by
the comparator's sign (insertion sort realizes exactly the stable order
the ECMAScript specification mandates for a consistent comparator). -/
def jsSort {α : Type} (cmp : α → α → Int) (l : List α) : List α :=
  @List.insertionSort α (fun a b => cmp a b ≤ 0) (fun x y => Int.decLe (cmp x y) 0) l

/-- The upcoming filter: keep time-based events starting strictly after
now and date-based events starting today or later. -/
def upcomingKeep (now : Int) (today : String) (e : CalendarEvent) : Bool :=
  match e.timing with
  | .timeBased s _ _ _ => decide (now < s)
  | .dateBased s _ => strLeb today s

/-- One page of useUpcomingCalendarEvents: query time-based and date-based
events separately (the until cursor applied only when the page parameter
is truthy), combine, validate, parse, keep upcoming ones, and sort with
the mixed comparator.  now and today are the wall-clock inputs read at
call time. -/
def upcomingPage (db : List NostrEvent) (tzOk : String → Bool) (now : Int) (today : String)
    (limit : Nat) (pageParam : Option Int) : List CalendarEvent :=
  let untilTs : Option Int := if optIntTruthy pageParam then pageParam else none
  let timeBasedEvents := relayQuery db [31923] limit untilTs
  let dateBasedEvents := relayQuery db [31922] limit untilTs
  let allEvents := timeBasedEvents ++ dateBasedEvents
  let parsedEvents :=
    ((allEvents.filter (validateCalendarEvent tzOk)).filterMap parseCalendarEvent).filter
      (upcomingKeep now today)
  jsSort upcomingCompare parsedEvents

/-- getNextPageParam of useUpcomingCalendarEvents: undefined on an empty
page (end of pagination), otherwise the creation timestamp of the last
item minus one. -/
def getNextPageParam (lastPage : List CalendarEvent) : Option Int :=
  match lastPage.getLast? with
  | none => none
  | some e => some (e.created_at - 1)

/-- The date-range filter predicate of useCalendarEventsByDateRange: a
time-based event with a truthy end overlaps when it starts at or before
the range end and ends at or after the range start, otherwise its start
must lie inside the range; a date-based event uses the same tests on the
ISO date strings. -/
def inDateRange (startTimestamp endTimestamp : Int) (startIsoDate endIsoDate : String)
    (e : CalendarEvent) : Bool :=
  match e.timing with
  | .timeBased s en _ _ =>
    if optIntTruthy en then decide (s ≤ endTimestamp) && decide (startTimestamp ≤ en.getD 0)
    else decide (startTimestamp ≤ s) && decide (s ≤ endTimestamp)
  | .dateBased s en =>
    if optTruthy en then strLeb s endIsoDate && strLeb startIsoDate (en.getD "")
    else strLeb startIsoDate s && strLeb s endIsoDate

/-- useCalendarEventsByDateRange: query both kinds broadly (limit 100),
validate, parse, and keep the events passing the date-range filter. -/
def calendarEventsByDateRange (db : List NostrEvent) (tzOk : String → Bool)
    (startTimestamp endTimestamp : Int) (startIsoDate endIsoDate : String) :
    List CalendarEvent :=
  let timeBasedEvents := relayQuery db [31923] 100 none
  let dateBasedEvents := relayQuery db [31922] 100 none
  let allEvents := timeBasedEvents ++ dateBasedEvents
  ((allEvents.filter (validateCalendarEvent tzOk)).filterMap parseCalendarEvent).filter
    (inDateRange startTimestamp endTimestamp startIsoDate endIsoDate)

/-- Modelled from the spec: the cross-kind comparison the specification
describes for claim C6, for an observer whose local zone sits utcOffset
seconds east of UTC: the date-based start becomes the Unix timestamp of
the start of that calendar day in the observer's local zone and is
compared numerically with the time-based start. -/
def specLocalCompare (utcOffset : Int) (a b : CalendarEvent) : Option Int :=
  match a.timing, b.timing with
  | .dateBased sa _, .timeBased sb _ _ _ =>
    (jsDateParse sa).map (fun t => (t - utcOffset) - sb)
  | _, _ => none

/-- One step of the JavaScript Map constructor: setting a key that is
already present overwrites its value in place (the key keeps its original
insertion position); a new key is appended. -/
def mapSet (m : List (String × CalendarEvent)) (k : String) (v : CalendarEvent) :
    List (String × CalendarEvent) :=
  if m.any (fun p => p.1 == k) then m.map (fun p => if p.1 == k then (k, v) else p)
  else m ++ [(k, v)]

/-- Feeding a pair list into a JavaScript Map, left to right. -/
def jsMapInsertAll (m : List (String × CalendarEvent))
    (l : List (String × CalendarEvent)) : List (String × CalendarEvent) :=
  l.foldl (fun acc p => mapSet acc p.1 p.2) m

/-- The dedup step of useCalendarEventSearch:
Array.from(new Map(events.map(e => [e.id, e])).values()). -/
def dedupById (events : List CalendarEvent) : List CalendarEvent :=
  (jsMapInsertAll [] (events.map (fun e => (e.id, e)))).map (fun p => p.2)

/-- Combining the hashtag result set with the client-side substring result
set and deduplicating by event id, as the search hook does. -/
def searchCombine (hashtagEvents parsedEvents : List CalendarEvent) : List CalendarEvent :=
  dedupById (hashtagEvents ++ parsedEvents)

/-- The ids of a list with later duplicates removed: first occurrences in
order, used to state what order the dedup step preserves. -/
def firstOccAux (seen : List String) : List String → List String
  | [] => []
  | k :: ks =>
    if seen.any (fun x => x == k) then firstOccAux seen ks
    else k :: firstOccAux (seen ++ [k]) ks

/-- Accumulated decimal value of a digit string, the read-back direction
of the parseInt model. -/
def digitsVal (cs : List Char) : Nat :=
  cs.foldl (fun a c => 10 * a + digitVal c) 0

/-- A minimal calendar event used as the base of the concrete examples. -/
def baseCalendarEvent : CalendarEvent :=
  { id := ""
    pubkey := ""
    created_at := 0
    content := ""
    tags := []
    d := "d0"
    title := "t0"
    summary := none
    image := none
    locations := []
    geohash := none
    participants := []
    hashtags := []
    references := []
    calendarRefs := []
    timing := .dateBased "1970-01-01" none }

/-- A date-based event whose single participant has a role but no relay
URL; the serializer then emits the role at the relay position. -/
def c1Event : CalendarEvent :=
  { baseCalendarEvent with
    d := "abc"
    title := "Meetup"
    content := "meet"
    participants := [{ pubkey := "pk1", relayUrl := none, role := some "speaker" }]
    timing := .dateBased "2025-06-01" none }

/-- A richer time-based event on which the amended round trip is
exercised concretely. -/
def c1WitnessEvent : CalendarEvent :=
  { baseCalendarEvent with
    d := "id1"
    title := "Standup"
    content := "desc"
    summary := some "short"
    image := some "img-url"
    locations := ["room1", ""]
    geohash := some "u4pruyd"
    participants :=
      [{ pubkey := "pk1", relayUrl := some "wss-relay", role := some "chair" },
       { pubkey := "pk2", relayUrl := none, role := none },
       { pubkey := "pk3", relayUrl := some "wss2", role := none }]
    hashtags := ["music"]
    references := ["ref1"]
    calendarRefs := ["31924:p:cal"]
    timing := .timeBased 1717200000 (some 1717203600) (some "Europe/Berlin") none }

/-- Raw event with the newer creation time but the later start. -/
def c2EventA : NostrEvent :=
  { id := "idA", pubkey := "pkA", created_at := 100, kind := 31923
    tags := [["d", "a1"], ["title", "A"], ["start", "50"]], content := "" }

/-- Raw event with the older creation time but the earlier start. -/
def c2EventB : NostrEvent :=
  { id := "idB", pubkey := "pkB", created_at := 50, kind := 31923
    tags := [["d", "b1"], ["title", "B"], ["start", "10"]], content := "" }

/-- The raw event collection of the pagination counterexample. -/
def c2Db : List NostrEvent := [c2EventA, c2EventB]

/-- The parse of c2EventA. -/
def c2ParsedA : CalendarEvent :=
  { baseCalendarEvent with
    id := "idA", pubkey := "pkA", created_at := 100
    tags := [["d", "a1"], ["title", "A"], ["start", "50"]]
    d := "a1", title := "A"
    timing := .timeBased 50 none none none }

/-- The parse of c2EventB. -/
def c2ParsedB : CalendarEvent :=
  { baseCalendarEvent with
    id := "idB", pubkey := "pkB", created_at := 50
    tags := [["d", "b1"], ["title", "B"], ["start", "10"]]
    d := "b1", title := "B"
    timing := .timeBased 10 none none none }

/-- A kind-31925 event whose first a tag has no value: the RSVP validator
dereferences its missing second element and calls split on undefined. -/
def c3BadRSVP : NostrEvent :=
  { id := "id1", pubkey := "pk1", created_at := 1000, kind := 31925
    tags := [["d", "x"], ["status", "accepted"], ["a"]], content := "" }

/-- The declined-with-fb RSVP of the specification's concrete scenario. -/
def c4Rsvp : NostrEvent :=
  { id := "id4", pubkey := "pk4", created_at := 4, kind := 31925
    tags := [["a", "31923:pub1:ev1"], ["d", "r1"], ["status", "declined"], ["fb", "busy"]]
    content := "" }

/-- A time-based raw event whose start does not parse. -/
def c5StartBad : NostrEvent :=
  { id := "i5a", pubkey := "p5", created_at := 5, kind := 31923
    tags := [["d", "x"], ["title", "t"], ["start", "xyz"]], content := "" }

/-- A time-based raw event with a good start and an unparsable end. -/
def c5EndBad : NostrEvent :=
  { id := "i5b", pubkey := "p5", created_at := 6, kind := 31923
    tags := [["d", "x"], ["title", "t"], ["start", "100"], ["end", "oops"]], content := "" }

/-- Date-based event starting 1970-01-02, whose UTC midnight is second
86400. -/
def c6DateEvent : CalendarEvent :=
  { baseCalendarEvent with timing := .dateBased "1970-01-02" none }

/-- Date-based event starting 1970-01-03. -/
def c6DateEvent2 : CalendarEvent :=
  { baseCalendarEvent with timing := .dateBased "1970-01-03" none }

/-- Time-based event starting at second 86400. -/
def c6TimeEvent : CalendarEvent :=
  { baseCalendarEvent with timing := .timeBased 86400 none none none }

/-- A validated date-based raw event carrying an empty-string end tag,
which the range filter treats as an absent end. -/
def c7RawDate : NostrEvent :=
  { id := "i7", pubkey := "p7", created_at := 7, kind := 31922
    tags := [["d", "x"], ["title", "t"], ["start", "2025-06-10"], ["end", "2025-06-12"]]
    content := "" }

/-- The parse of c7RawDate. -/
def c7ParsedDate : CalendarEvent :=
  { baseCalendarEvent with
    id := "i7", pubkey := "p7", created_at := 7
    tags := [["d", "x"], ["title", "t"], ["start", "2025-06-10"], ["end", "2025-06-12"]]
    d := "x", title := "t"
    timing := .dateBased "2025-06-10" (some "2025-06-12") }

/-- First event with id x. -/
def c9Event1 : CalendarEvent :=
  { baseCalendarEvent with id := "x", title := "A" }

/-- A different event carrying the same id x. -/
def c9Event2 : CalendarEvent :=
  { baseCalendarEvent with id := "x", title := "B" }

/-- Kind-31922 event whose start is not in date format: rejected by the
validator, accepted by the parser. -/
def c10BadDate : NostrEvent :=
  { id := "i1", pubkey := "p1", created_at := 1, kind := 31922
    tags := [["d", "a"], ["title", "T"], ["start", "June first"]], content := "" }

/-- Kind-31923 event with a non-positive start: rejected by the
validator, accepted by the parser. -/
def c10NonPositive : NostrEvent :=
  { id := "i2", pubkey := "p2", created_at := 2, kind := 31923
    tags := [["d", "b"], ["title", "U"], ["start", "-5"]], content := "" }

/-- Kind-31923 event whose end precedes its start: rejected by the
validator, accepted by the parser. -/
def c10EndBeforeStart : NostrEvent :=
  { id := "i3", pubkey := "p3", created_at := 3, kind := 31923
    tags := [["d", "c"], ["title", "V"], ["start", "100"], ["end", "50"]], content := "" }

theorem digitVal_digitChar {m : Nat} (h : m < 10) : digitVal (Nat.digitChar m) = m := by
  interval_cases m <;> rfl

theorem isAsciiDigit_digitChar {m : Nat} (h : m < 10) :
    isAsciiDigit (Nat.digitChar m) = true := by
  interval_cases m <;> rfl

theorem natToCharsAux_fuel {f1 f2 n : Nat} (h1 : n < f1) (h2 : n < f2) :
    natToCharsAux f1 n = natToCharsAux f2 n := by
  induction n using Nat.strongRecOn generalizing f1 f2 with
  | _ n ih =>
    cases f1 with
    | zero => omega
    | succ g1 =>
      cases f2 with
      | zero => omega
      | succ g2 =>
        simp only [natToCharsAux]
        by_cases hn : n < 10
        · simp [hn]
        · simp only [hn, if_false]
          rw [@ih (n / 10) (by omega) g1 g2 (by omega) (by omega)]

theorem natToCharsAux_all_digits {fuel n : Nat} (h : n < fuel) :
    (natToCharsAux fuel n).all isAsciiDigit = true := by
  induction n using Nat.strongRecOn generalizing fuel with
  | _ n ih =>
    cases fuel with
    | zero => omega
    | succ g =>
      simp only [natToCharsAux]
      by_cases hn : n < 10
      · simp [hn, isAsciiDigit_digitChar hn]
      · simp only [hn, if_false, List.all_append, Bool.and_eq_true]
        refine ⟨@ih (n / 10) (by omega) g (by omega), ?_⟩
        simp [isAsciiDigit_digitChar (Nat.mod_lt n (by omega))]

theorem natToCharsAux_ne_nil {fuel n : Nat} (h : n < fuel) :
    natToCharsAux fuel n ≠ [] := by
  cases fuel with
  | zero => omega
  | succ g =>
    simp only [natToCharsAux]
    by_cases hn : n < 10
    · simp [hn]
    · simp [hn]

theorem natToChars_all_digits (n : Nat) : (natToChars n).all isAsciiDigit = true :=
  natToCharsAux_all_digits (Nat.lt_succ_self n)

theorem natToChars_ne_nil (n : Nat) : natToChars n ≠ [] :=
  natToCharsAux_ne_nil (Nat.lt_succ_self n)

theorem digitsVal_natToChars (n : Nat) : digitsVal (natToChars n) = n := by
  induction n using Nat.strongRecOn with
  | _ n ih =>
    unfold natToChars natToCharsAux
    by_cases hn : n < 10
    · simp [hn, digitsVal, digitVal_digitChar hn]
    · simp only [hn, if_false]
      rw [@natToCharsAux_fuel n (n / 10 + 1) (n / 10) (by omega) (by omega)]
      have hrec := ih (n / 10) (by omega)
      unfold natToChars at hrec
      simp only [digitsVal, List.foldl_append] at *
      rw [hrec]
      simp [digitVal_digitChar (Nat.mod_lt n (by omega))]
      omega

theorem isJsSpace_of_digit {c : Char} (h : isAsciiDigit c = true) : isJsSpace c = false := by
  simp only [isAsciiDigit, Bool.and_eq_true, decide_eq_true_eq] at h
  simp only [isJsSpace, Bool.or_eq_false_iff, decide_eq_false_iff_not]
  omega

theorem dropWhile_space_of_digits {cs : List Char} (h : cs.all isAsciiDigit = true) :
    cs.dropWhile isJsSpace = cs := by
  cases cs with
  | nil => rfl
  | cons c rest =>
    simp only [List.all_cons, Bool.and_eq_true] at h
    simp [List.dropWhile_cons, isJsSpace_of_digit h.1]

theorem takeWhile_digits_of_digits {cs : List Char} (h : cs.all isAsciiDigit = true) :
    cs.takeWhile isAsciiDigit = cs :=
  List.takeWhile_eq_self_iff.mpr (List.all_eq_true.mp h)

theorem parseDigits_of_digits {cs : List Char} (h : cs.all isAsciiDigit = true)
    (hne : cs ≠ []) : parseDigits cs = some (digitsVal cs) := by
  simp [parseDigits, takeWhile_digits_of_digits h, hne, digitsVal]

theorem not_hex_marker_of_digit {c : Char} (h : isAsciiDigit c = true) :
    (c = 'x' ∨ c = 'X') → False := by
  simp only [isAsciiDigit, Bool.and_eq_true, decide_eq_true_eq] at h
  rintro (rfl | rfl) <;> simp at h

theorem parseIntNoSign_of_digits {cs : List Char} (h : cs.all isAsciiDigit = true) :
    parseIntNoSign cs = parseDigits cs := by
  match cs with
  | [] => rfl
  | [c] => rfl
  | c0 :: c1 :: rest =>
    simp only [List.all_cons, Bool.and_eq_true] at h
    have hx : (c0 = '0' && (c1 = 'x' || c1 = 'X')) = false := by
      rcases h with ⟨h0, h1, hr⟩
      by_contra hcon
      rw [Bool.not_eq_false, Bool.and_eq_true] at hcon
      refine not_hex_marker_of_digit h1 ?_
      rcases hcon with ⟨hc0, hc1⟩
      simp only [Bool.or_eq_true, decide_eq_true_eq] at hc1
      exact hc1
    simp [parseIntNoSign, hx]

theorem not_sign_of_digit {c : Char} (h : isAsciiDigit c = true) :
    c ≠ '-' ∧ c ≠ '+' := by
  simp only [isAsciiDigit, Bool.and_eq_true, decide_eq_true_eq] at h
  constructor <;> rintro rfl <;> simp at h

theorem jsParseInt_of_digits {cs : List Char} (h : cs.all isAsciiDigit = true)
    (hne : cs ≠ []) : jsParseInt ⟨cs⟩ = some ((digitsVal cs : Nat) : Int) := by
  cases cs with
  | nil => exact absurd rfl hne
  | cons c rest =>
    have hc : isAsciiDigit c = true := by
      simp only [List.all_cons, Bool.and_eq_true] at h
      exact h.1
    have hsign := not_sign_of_digit hc
    show jsParseInt ⟨c :: rest⟩ = _
    have hdata : (String.mk (c :: rest)).data = c :: rest := rfl
    simp only [jsParseInt, hdata, dropWhile_space_of_digits h]
    simp only [hsign.1, hsign.2, if_false]
    rw [parseIntNoSign_of_digits h, parseDigits_of_digits h (by simp)]
    rfl

theorem jsParseInt_neg_digits {cs : List Char} (h : cs.all isAsciiDigit = true)
    (hne : cs ≠ []) : jsParseInt ⟨'-' :: cs⟩ = some (-(digitsVal cs : Int)) := by
  have hx : isJsSpace '-' = false := by decide
  have hdata : (String.mk ('-' :: cs)).data = '-' :: cs := rfl
  simp only [jsParseInt, hdata, List.dropWhile_cons, hx, Bool.false_eq_true, if_false]
  simp only [parseIntNoSign_of_digits h, parseDigits_of_digits h hne]
  simp

theorem jsParseInt_jsNumToString (i : Int) : jsParseInt (jsNumToString i) = some i := by
  by_cases hneg : i < 0
  · simp only [jsNumToString, hneg, if_true]
    rw [jsParseInt_neg_digits (natToChars_all_digits i.natAbs) (natToChars_ne_nil i.natAbs),
      digitsVal_natToChars]
    congr 1
    omega
  · simp only [jsNumToString, hneg, if_false]
    rw [jsParseInt_of_digits (natToChars_all_digits i.toNat) (natToChars_ne_nil i.toNat),
      digitsVal_natToChars]
    congr 1
    omega

theorem jsNumToString_ne_empty (i : Int) : jsNumToString i ≠ "" := by
  by_cases hneg : i < 0
  · simp only [jsNumToString, hneg, if_true]
    intro hcon
    have : ('-' :: natToChars i.natAbs) = ([] : List Char) := congrArg String.data hcon
    simp at this
  · simp only [jsNumToString, hneg, if_false]
    intro hcon
    exact natToChars_ne_nil i.toNat (congrArg String.data hcon)

theorem find?_head_none {l : List (List String)} {nm k : String}
    (hall : ∀ t ∈ l, t.head? = some nm) (hne : nm ≠ k) :
    l.find? (fun t => t.head? = some k) = none := by
  rw [List.find?_eq_none]
  intro t ht
  simp [hall t ht, hne]

theorem find?_append_none {α : Type} {p : α → Bool} {l1 l2 : List α}
    (h1 : l1.find? p = none) (h2 : l2.find? p = none) : (l1 ++ l2).find? p = none := by
  simp [List.find?_append, h1, h2]

theorem findTagValue_skip {l1 l2 : List (List String)} {k : String}
    (h : l1.find? (fun t => t.head? = some k) = none) :
    findTagValue (l1 ++ l2) k = findTagValue l2 k := by
  simp [findTagValue, List.find?_append, h]

theorem optTag_heads {nm : String} {o : Option String} :
    ∀ t ∈ optTag nm o, t.head? = some nm := by
  cases o with
  | none => simp [optTag]
  | some s =>
    by_cases hs : s = "" <;> simp [optTag, hs]

theorem mapTag_heads {nm : String} {xs : List String} :
    ∀ t ∈ xs.map (fun x => [nm, x]), t.head? = some nm := by
  simp

theorem pTag_head (p : ParticipantInfo) : (pTag p).head? = some "p" := rfl

theorem pTagList_heads {ps : List ParticipantInfo} :
    ∀ t ∈ ps.map pTag, t.head? = some "p" := by
  intro t ht
  rcases List.mem_map.mp ht with ⟨p, _, rfl⟩
  exact pTag_head p

theorem optTag_find?_ne {nm k : String} {o : Option String} (hne : nm ≠ k) :
    (optTag nm o).find? (fun t => t.head? = some k) = none :=
  find?_head_none optTag_heads hne

theorem mapTag_find?_ne {nm k : String} {xs : List String} (hne : nm ≠ k) :
    (xs.map (fun x => [nm, x])).find? (fun t => t.head? = some k) = none :=
  find?_head_none mapTag_heads hne

theorem pTagList_find?_ne {k : String} {ps : List ParticipantInfo} (hne : "p" ≠ k) :
    (ps.map pTag).find? (fun t => t.head? = some k) = none :=
  find?_head_none pTagList_heads hne

theorem findTagValue_optTag_here {nm : String} {o : Option String}
    {l2 : List (List String)} (hl2 : l2.find? (fun t => t.head? = some nm) = none) :
    findTagValue (optTag nm o ++ l2) nm = if optTruthy o then o else none := by
  cases o with
  | none => simp [optTag, findTagValue, List.find?_append, hl2, optTruthy]
  | some s =>
    by_cases hs : s = "" <;>
      simp [optTag, findTagValue, List.find?_append, List.find?_cons, hl2, optTruthy, hs]

theorem filter_head_nil {l : List (List String)} {nm k : String}
    (hall : ∀ t ∈ l, t.head? = some nm) (hne : nm ≠ k) :
    l.filter (fun t => t.head? = some k) = [] := by
  rw [List.filter_eq_nil_iff]
  intro t ht
  simp [hall t ht, hne]

theorem filter_head_self {l : List (List String)} {nm : String}
    (hall : ∀ t ∈ l, t.head? = some nm) :
    l.filter (fun t => t.head? = some nm) = l := by
  rw [List.filter_eq_self]
  intro t ht
  simp [hall t ht]

theorem values_mapTag {nm : String} {xs : List String} :
    ((xs.map (fun x => [nm, x])).map (fun t => (t.get? 1).getD "")) = xs := by
  rw [List.map_map]
  exact List.map_congr_left (fun a _ => rfl) |>.trans (List.map_id xs)

theorem commonTags_find?_none {e : CalendarEvent} {k : String}
    (hd : k ≠ "d") (ht : k ≠ "title") (hs : k ≠ "summary") (hi : k ≠ "image")
    (hl : k ≠ "location") (hg : k ≠ "g") (hp : k ≠ "p") (hh : k ≠ "t")
    (hr : k ≠ "r") (ha : k ≠ "a") :
    (commonTags e).find? (fun t => t.head? = some k) = none := by
  unfold commonTags
  simp only [List.append_assoc]
  refine find?_append_none ?_ (find?_append_none (optTag_find?_ne (Ne.symm hs))
    (find?_append_none (optTag_find?_ne (Ne.symm hi))
      (find?_append_none (mapTag_find?_ne (Ne.symm hl))
        (find?_append_none (optTag_find?_ne (Ne.symm hg))
          (find?_append_none (pTagList_find?_ne (Ne.symm hp))
            (find?_append_none (mapTag_find?_ne (Ne.symm hh))
              (find?_append_none (mapTag_find?_ne (Ne.symm hr))
                (mapTag_find?_ne (Ne.symm ha)))))))))
  rw [List.find?_eq_none]
  intro t htmem
  simp only [List.mem_cons, List.not_mem_nil, or_false] at htmem
  rcases htmem with rfl | rfl
  · simp [Ne.symm hd]
  · simp [Ne.symm ht]

theorem timingTags_find?_none {tm : EventTiming} {k : String}
    (hs : k ≠ "start") (he : k ≠ "end") (hst : k ≠ "start_tzid") (het : k ≠ "end_tzid") :
    (timingTags tm).find? (fun t => t.head? = some k) = none := by
  cases tm with
  | dateBased s en =>
    unfold timingTags
    refine find?_append_none ?_ (optTag_find?_ne (Ne.symm he))
    rw [List.find?_eq_none]
    intro t htmem
    simp only [List.mem_singleton] at htmem
    subst htmem
    simp [Ne.symm hs]
  | timeBased s en stz etz =>
    unfold timingTags
    simp only [List.append_assoc]
    refine find?_append_none ?_ (find?_append_none ?_
      (find?_append_none (optTag_find?_ne (Ne.symm hst)) (optTag_find?_ne (Ne.symm het))))
    · rw [List.find?_eq_none]
      intro t htmem
      simp only [List.mem_singleton] at htmem
      subst htmem
      simp [Ne.symm hs]
    · rw [List.find?_eq_none]
      intro t htmem
      cases en with
      | none => simp at htmem
      | some v =>
        simp only [List.mem_singleton] at htmem
        subst htmem
        simp [Ne.symm he]

theorem findTagValue_optTag_self {nm : String} {o : Option String} :
    findTagValue (optTag nm o) nm = if optTruthy o then o else none := by
  cases o with
  | none => rfl
  | some s =>
    by_cases hs : s = "" <;> simp [optTag, findTagValue, optTruthy, hs]

theorem filter_optTag_ne {nm k : String} {o : Option String} (hne : nm ≠ k) :
    (optTag nm o).filter (fun t => t.head? = some k) = [] :=
  filter_head_nil optTag_heads hne

theorem filter_mapTag_ne {nm k : String} {xs : List String} (hne : nm ≠ k) :
    (xs.map (fun x => [nm, x])).filter (fun t => t.head? = some k) = [] :=
  filter_head_nil mapTag_heads hne

theorem filter_pTagList_ne {k : String} {ps : List ParticipantInfo} (hne : "p" ≠ k) :
    (ps.map pTag).filter (fun t => t.head? = some k) = [] :=
  filter_head_nil pTagList_heads hne

theorem filter_mapTag_self {nm : String} {xs : List String} :
    (xs.map (fun x => [nm, x])).filter (fun t => t.head? = some nm) = xs.map (fun x => [nm, x]) :=
  filter_head_self mapTag_heads

theorem filter_pTagList_self {ps : List ParticipantInfo} :
    (ps.map pTag).filter (fun t => t.head? = some "p") = ps.map pTag :=
  filter_head_self pTagList_heads

theorem filter_timingTags_none {tm : EventTiming} {k : String}
    (hs : k ≠ "start") (he : k ≠ "end") (hst : k ≠ "start_tzid") (het : k ≠ "end_tzid") :
    (timingTags tm).filter (fun t => t.head? = some k) = [] := by
  rw [List.filter_eq_nil_iff]
  intro t htmem
  cases tm with
  | dateBased s en =>
    unfold timingTags at htmem
    rcases List.mem_append.mp htmem with h1 | h2
    · simp only [List.mem_singleton] at h1
      subst h1
      simp [Ne.symm hs]
    · simp [optTag_heads t h2, Ne.symm he]
  | timeBased s en stz etz =>
    unfold timingTags at htmem
    simp only [List.append_assoc, List.mem_append] at htmem
    rcases htmem with h1 | h2 | h3 | h4
    · simp only [List.mem_singleton] at h1
      subst h1
      simp [Ne.symm hs]
    · cases en with
      | none => simp at h2
      | some v =>
        simp only [List.mem_singleton] at h2
        subst h2
        simp [Ne.symm he]
    · simp [optTag_heads t h3, Ne.symm hst]
    · simp [optTag_heads t h4, Ne.symm het]

theorem serialLookup_d (e : CalendarEvent) (tm : EventTiming) :
    findTagValue (commonTags e ++ timingTags tm) "d" = some e.d := by
  unfold commonTags
  simp [findTagValue, List.find?_append, List.find?_cons]

theorem serialLookup_title (e : CalendarEvent) (tm : EventTiming) :
    findTagValue (commonTags e ++ timingTags tm) "title" = some e.title := by
  unfold commonTags
  simp [findTagValue, List.find?_append, List.find?_cons]

theorem serialLookup_summary (e : CalendarEvent) (tm : EventTiming) :
    findTagValue (commonTags e ++ timingTags tm) "summary" =
      if optTruthy e.summary then e.summary else none := by
  unfold commonTags
  simp only [List.append_assoc]
  have hskip : List.find? (fun t => t.head? = some "summary")
      [["d", e.d], ["title", e.title]] = none := by simp
  rw [findTagValue_skip hskip]
  refine findTagValue_optTag_here ?_
  repeat' (first
    | exact optTag_find?_ne (by decide)
    | exact mapTag_find?_ne (by decide)
    | exact pTagList_find?_ne (by decide)
    | exact timingTags_find?_none (by decide) (by decide) (by decide) (by decide)
    | refine find?_append_none ?_ ?_)

theorem serialLookup_image (e : CalendarEvent) (tm : EventTiming) :
    findTagValue (commonTags e ++ timingTags tm) "image" =
      if optTruthy e.image then e.image else none := by
  unfold commonTags
  simp only [List.append_assoc]
  have hskip : List.find? (fun t => t.head? = some "image")
      [["d", e.d], ["title", e.title]] = none := by simp
  rw [findTagValue_skip hskip, findTagValue_skip (optTag_find?_ne (by decide))]
  refine findTagValue_optTag_here ?_
  repeat' (first
    | exact optTag_find?_ne (by decide)
    | exact mapTag_find?_ne (by decide)
    | exact pTagList_find?_ne (by decide)
    | exact timingTags_find?_none (by decide) (by decide) (by decide) (by decide)
    | refine find?_append_none ?_ ?_)

theorem serialLookup_g (e : CalendarEvent) (tm : EventTiming) :
    findTagValue (commonTags e ++ timingTags tm) "g" =
      if optTruthy e.geohash then e.geohash else none := by
  unfold commonTags
  simp only [List.append_assoc]
  have hskip : List.find? (fun t => t.head? = some "g")
      [["d", e.d], ["title", e.title]] = none := by simp
  rw [findTagValue_skip hskip, findTagValue_skip (optTag_find?_ne (by decide)),
    findTagValue_skip (optTag_find?_ne (by decide)),
    findTagValue_skip (mapTag_find?_ne (by decide))]
  refine findTagValue_optTag_here ?_
  repeat' (first
    | exact optTag_find?_ne (by decide)
    | exact mapTag_find?_ne (by decide)
    | exact pTagList_find?_ne (by decide)
    | exact timingTags_find?_none (by decide) (by decide) (by decide) (by decide)
    | refine find?_append_none ?_ ?_)

theorem serialLookup_timing (e : CalendarEvent) (tm : EventTiming) {k : String}
    (hs : k ≠ "d") (ht : k ≠ "title") (hsum : k ≠ "summary") (hi : k ≠ "image")
    (hl : k ≠ "location") (hg : k ≠ "g") (hp : k ≠ "p") (hh : k ≠ "t")
    (hr : k ≠ "r") (ha : k ≠ "a") :
    findTagValue (commonTags e ++ timingTags tm) k = findTagValue (timingTags tm) k :=
  findTagValue_skip (commonTags_find?_none hs ht hsum hi hl hg hp hh hr ha)

theorem serialLookup_start_date (e : CalendarEvent) (s : String) (en : Option String) :
    findTagValue (commonTags e ++ timingTags (.dateBased s en)) "start" = some s := by
  rw [serialLookup_timing e _ (by decide) (by decide) (by decide) (by decide) (by decide)
    (by decide) (by decide) (by decide) (by decide) (by decide)]
  simp [timingTags, findTagValue, List.find?_append]

theorem serialLookup_end_date (e : CalendarEvent) (s : String) (en : Option String) :
    findTagValue (commonTags e ++ timingTags (.dateBased s en)) "end" =
      if optTruthy en then en else none := by
  rw [serialLookup_timing e _ (by decide) (by decide) (by decide) (by decide) (by decide)
    (by decide) (by decide) (by decide) (by decide) (by decide)]
  unfold timingTags
  have hskip : List.find? (fun t => t.head? = some "end") [["start", s]] = none := by simp
  rw [findTagValue_skip hskip, findTagValue_optTag_self]

theorem serialLookup_start_time (e : CalendarEvent) (st : Int) (en : Option Int)
    (stz etz : Option String) :
    findTagValue (commonTags e ++ timingTags (.timeBased st en stz etz)) "start" =
      some (jsNumToString st) := by
  rw [serialLookup_timing e _ (by decide) (by decide) (by decide) (by decide) (by decide)
    (by decide) (by decide) (by decide) (by decide) (by decide)]
  simp [timingTags, findTagValue, List.find?_append, List.append_assoc]

theorem serialLookup_end_time (e : CalendarEvent) (st : Int) (en : Option Int)
    (stz etz : Option String) :
    findTagValue (commonTags e ++ timingTags (.timeBased st en stz etz)) "end" =
      en.map jsNumToString := by
  rw [serialLookup_timing e _ (by decide) (by decide) (by decide) (by decide) (by decide)
    (by decide) (by decide) (by decide) (by decide) (by decide)]
  unfold timingTags
  simp only [List.append_assoc]
  have hskip : List.find? (fun t => t.head? = some "end") [["start", jsNumToString st]] = none := by
    simp
  rw [findTagValue_skip hskip]
  cases en with
  | none =>
    simp only [Option.map_none, List.nil_append]
    simp [findTagValue, List.find?_append,
      optTag_find?_ne (show "start_tzid" ≠ "end" by decide),
      optTag_find?_ne (show "end_tzid" ≠ "end" by decide)]
  | some v =>
    simp [findTagValue, List.find?_append]

theorem serialLookup_stz (e : CalendarEvent) (st : Int) (en : Option Int)
    (stz etz : Option String) :
    findTagValue (commonTags e ++ timingTags (.timeBased st en stz etz)) "start_tzid" =
      if optTruthy stz then stz else none := by
  rw [serialLookup_timing e _ (by decide) (by decide) (by decide) (by decide) (by decide)
    (by decide) (by decide) (by decide) (by decide) (by decide)]
  unfold timingTags
  simp only [List.append_assoc]
  have hskip : List.find? (fun t => t.head? = some "start_tzid")
      [["start", jsNumToString st]] = none := by simp
  rw [findTagValue_skip hskip]
  have hend : List.find? (fun t => t.head? = some "start_tzid")
      (match en with
       | some v => [["end", jsNumToString v]]
       | none => ([] : List (List String))) = none := by
    cases en <;> simp
  rw [findTagValue_skip hend]
  exact findTagValue_optTag_here (optTag_find?_ne (by decide))

theorem serialLookup_etz (e : CalendarEvent) (st : Int) (en : Option Int)
    (stz etz : Option String) :
    findTagValue (commonTags e ++ timingTags (.timeBased st en stz etz)) "end_tzid" =
      if optTruthy etz then etz else none := by
  rw [serialLookup_timing e _ (by decide) (by decide) (by decide) (by decide) (by decide)
    (by decide) (by decide) (by decide) (by decide) (by decide)]
  unfold timingTags
  simp only [List.append_assoc]
  have hskip : List.find? (fun t => t.head? = some "end_tzid")
      [["start", jsNumToString st]] = none := by simp
  rw [findTagValue_skip hskip]
  have hend : List.find? (fun t => t.head? = some "end_tzid")
      (match en with
       | some v => [["end", jsNumToString v]]
       | none => ([] : List (List String))) = none := by
    cases en <;> simp
  rw [findTagValue_skip hend, findTagValue_skip (optTag_find?_ne (by decide))]
  exact findTagValue_optTag_self

theorem serialValues_location (e : CalendarEvent) (tm : EventTiming) :
    findTagValues (commonTags e ++ timingTags tm) "location" = e.locations := by
  unfold findTagValues commonTags
  simp only [List.append_assoc, List.filter_append]
  rw [filter_optTag_ne (by decide), filter_optTag_ne (by decide), filter_optTag_ne (by decide),
    filter_mapTag_self, filter_pTagList_ne (by decide), filter_mapTag_ne (by decide),
    filter_mapTag_ne (by decide), filter_mapTag_ne (by decide),
    filter_timingTags_none (by decide) (by decide) (by decide) (by decide)]
  have hlit : List.filter (fun t => t.head? = some "location")
      [["d", e.d], ["title", e.title]] = [] := by simp
  rw [hlit]
  simp only [List.nil_append, List.append_nil, List.map_map]
  exact (List.map_congr_left (fun a _ => rfl)).trans (List.map_id _)

theorem serialValues_t (e : CalendarEvent) (tm : EventTiming) :
    findTagValues (commonTags e ++ timingTags tm) "t" = e.hashtags := by
  unfold findTagValues commonTags
  simp only [List.append_assoc, List.filter_append]
  rw [filter_optTag_ne (by decide), filter_optTag_ne (by decide), filter_optTag_ne (by decide),
    filter_mapTag_ne (by decide), filter_pTagList_ne (by decide), filter_mapTag_self,
    filter_mapTag_ne (by decide), filter_mapTag_ne (by decide),
    filter_timingTags_none (by decide) (by decide) (by decide) (by decide)]
  have hlit : List.filter (fun t => t.head? = some "t")
      [["d", e.d], ["title", e.title]] = [] := by simp
  rw [hlit]
  simp only [List.nil_append, List.append_nil, List.map_map]
  exact (List.map_congr_left (fun a _ => rfl)).trans (List.map_id _)

theorem serialValues_r (e : CalendarEvent) (tm : EventTiming) :
    findTagValues (commonTags e ++ timingTags tm) "r" = e.references := by
  unfold findTagValues commonTags
  simp only [List.append_assoc, List.filter_append]
  rw [filter_optTag_ne (by decide), filter_optTag_ne (by decide), filter_optTag_ne (by decide),
    filter_mapTag_ne (by decide), filter_pTagList_ne (by decide), filter_mapTag_ne (by decide),
    filter_mapTag_self, filter_mapTag_ne (by decide),
    filter_timingTags_none (by decide) (by decide) (by decide) (by decide)]
  have hlit : List.filter (fun t => t.head? = some "r")
      [["d", e.d], ["title", e.title]] = [] := by simp
  rw [hlit]
  simp only [List.nil_append, List.append_nil, List.map_map]
  exact (List.map_congr_left (fun a _ => rfl)).trans (List.map_id _)

theorem serialValues_a (e : CalendarEvent) (tm : EventTiming) :
    findTagValues (commonTags e ++ timingTags tm) "a" = e.calendarRefs := by
  unfold findTagValues commonTags
  simp only [List.append_assoc, List.filter_append]
  rw [filter_optTag_ne (by decide), filter_optTag_ne (by decide), filter_optTag_ne (by decide),
    filter_mapTag_ne (by decide), filter_pTagList_ne (by decide), filter_mapTag_ne (by decide),
    filter_mapTag_ne (by decide), filter_mapTag_self,
    filter_timingTags_none (by decide) (by decide) (by decide) (by decide)]
  have hlit : List.filter (fun t => t.head? = some "a")
      [["d", e.d], ["title", e.title]] = [] := by simp
  rw [hlit]
  simp only [List.nil_append, List.append_nil, List.map_map]
  exact (List.map_congr_left (fun a _ => rfl)).trans (List.map_id _)

theorem serialFilter_p (e : CalendarEvent) (tm : EventTiming) :
    (commonTags e ++ timingTags tm).filter (fun t => t.head? = some "p") =
      e.participants.map pTag := by
  unfold commonTags
  simp only [List.append_assoc, List.filter_append]
  rw [filter_optTag_ne (by decide), filter_optTag_ne (by decide), filter_optTag_ne (by decide),
    filter_mapTag_ne (by decide), filter_pTagList_self, filter_mapTag_ne (by decide),
    filter_mapTag_ne (by decide), filter_mapTag_ne (by decide),
    filter_timingTags_none (by decide) (by decide) (by decide) (by decide)]
  have hlit : List.filter (fun t => t.head? = some "p")
      [["d", e.d], ["title", e.title]] = [] := by simp
  rw [hlit]
  simp

theorem optTruthy_if_eq {o : Option String} (h : o ≠ some "") :
    (if optTruthy o then o else none) = o := by
  cases o with
  | none => rfl
  | some s =>
    have hs : s ≠ "" := fun hc => h (by rw [hc])
    simp [optTruthy, hs]

theorem parse_pTag_list (ps : List ParticipantInfo)
    (hpart : ∀ q ∈ ps, q.relayUrl ≠ some "" ∧ q.role ≠ some "" ∧
      (q.role.isSome → q.relayUrl.isSome)) :
    (ps.map pTag).map (fun tag =>
      ({ pubkey := (tag.get? 1).getD "", relayUrl := tag.get? 2, role := tag.get? 3 } :
        ParticipantInfo)) = ps := by
  rw [List.map_map]
  refine (List.map_congr_left ?_).trans (List.map_id _)
  intro q hq
  obtain ⟨⟨hrel, hrole, himp⟩⟩ := And.intro (hpart q hq) trivial
  obtain ⟨pk, rel, rol⟩ := q
  simp only at hrel hrole himp
  cases rel with
  | none =>
    cases rol with
    | none => simp [pTag, optVal, Function.comp]
    | some ro => exact absurd (himp (by simp)) (by simp)
  | some r =>
    have hr : r ≠ "" := fun hc => hrel (by rw [hc])
    cases rol with
    | none => simp [pTag, optVal, Function.comp, hr]
    | some ro =>
      have hro : ro ≠ "" := fun hc => hrole (by rw [hc])
      simp [pTag, optVal, Function.comp, hr, hro]

/-- Claim C1 (amended): parse after serialize-and-merge restores every
domain field (id, pubkey and created_at being the merged-in values and
tags the serialized tag list), for any event whose serialization the
Validator accepts, provided additionally that each optional string field
is absent or non-empty (the code conflates the empty string with absence)
and that every participant carrying a role also carries a relay URL (the
serializer emits positional p tags, so a role without a relay URL shifts
into the relay position, the counterexample). -/
theorem c1_roundtrip_amended (e : CalendarEvent) (tzOk : String → Bool)
    (i p : String) (c : Int)
    (hval : validateCalendarEvent tzOk
      (mergePartial (serializeCalendarEvent e) i p c) = true)
    (hsum : e.summary ≠ some "") (himg : e.image ≠ some "") (hgeo : e.geohash ≠ some "")
    (hpart : ∀ q ∈ e.participants, q.relayUrl ≠ some "" ∧ q.role ≠ some "" ∧
      (q.role.isSome → q.relayUrl.isSome))
    (hdates : ∀ s en, e.timing = .dateBased s en → en ≠ some "")
    (htzs : ∀ st en stz etz, e.timing = .timeBased st en stz etz →
      stz ≠ some "" ∧ etz ≠ some "") :
    parseCalendarEvent (mergePartial (serializeCalendarEvent e) i p c) =
      some { e with id := i, pubkey := p, created_at := c,
                    tags := (serializeCalendarEvent e).tags } := by
  rcases ht : e.timing with ⟨s, en⟩ | ⟨st, en, stz, etz⟩
  case dateBased =>
    have hdate : en ≠ some "" := hdates s en ht
    have hkM : (mergePartial (serializeCalendarEvent e) i p c).kind = 31922 := by
      show (serializeCalendarEvent e).kind = 31922
      simp [serializeCalendarEvent, CalendarEvent.kind, ht]
    have htags : (mergePartial (serializeCalendarEvent e) i p c).tags =
        commonTags e ++ timingTags (.dateBased s en) := by
      show commonTags e ++ timingTags e.timing = _
      rw [ht]
    have hgd : getTagValue (mergePartial (serializeCalendarEvent e) i p c) "d" = some e.d := by
      rw [getTagValue, htags, serialLookup_d]
    have hgt : getTagValue (mergePartial (serializeCalendarEvent e) i p c) "title" = some e.title := by
      rw [getTagValue, htags, serialLookup_title]
    have hgs : getTagValue (mergePartial (serializeCalendarEvent e) i p c) "start" = some s := by
      rw [getTagValue, htags, serialLookup_start_date]
    have hge : getTagValue (mergePartial (serializeCalendarEvent e) i p c) "end" = en := by
      rw [getTagValue, htags, serialLookup_end_date]
      exact optTruthy_if_eq hdate
    have hgsum : getTagValue (mergePartial (serializeCalendarEvent e) i p c) "summary" = e.summary := by
      rw [getTagValue, htags, serialLookup_summary]
      exact optTruthy_if_eq hsum
    have hgimg : getTagValue (mergePartial (serializeCalendarEvent e) i p c) "image" = e.image := by
      rw [getTagValue, htags, serialLookup_image]
      exact optTruthy_if_eq himg
    have hgg : getTagValue (mergePartial (serializeCalendarEvent e) i p c) "g" = e.geohash := by
      rw [getTagValue, htags, serialLookup_g]
      exact optTruthy_if_eq hgeo
    have hgloc : getTagValues (mergePartial (serializeCalendarEvent e) i p c) "location" = e.locations := by
      rw [getTagValues, htags, serialValues_location]
    have hght : getTagValues (mergePartial (serializeCalendarEvent e) i p c) "t" = e.hashtags := by
      rw [getTagValues, htags, serialValues_t]
    have hgr : getTagValues (mergePartial (serializeCalendarEvent e) i p c) "r" = e.references := by
      rw [getTagValues, htags, serialValues_r]
    have hga : getTagValues (mergePartial (serializeCalendarEvent e) i p c) "a" = e.calendarRefs := by
      rw [getTagValues, htags, serialValues_a]
    have hgp : (mergePartial (serializeCalendarEvent e) i p c).tags.filter
        (fun t => t.head? = some "p") = e.participants.map pTag := by
      rw [htags, serialFilter_p]
    -- extract truthiness facts from the validator
    rw [validateCalendarEvent] at hval
    rw [hkM, hgd, hgt, hgs] at hval
    simp only [show ((31922 : Nat) = 31922 || (31922 : Nat) = 31923) = true by decide,
      Bool.not_true, Bool.false_eq_true, if_false] at hval
    by_cases hcond : (!optTruthy (some e.d) || !optTruthy (some e.title) || !optTruthy (some s)) = true
    · rw [if_pos hcond] at hval
      exact absurd hval (by simp)
    · rw [if_neg hcond] at hval
      rw [Bool.not_eq_true] at hcond
      simp only [Bool.or_eq_false_iff, Bool.not_eq_false'] at hcond
      obtain ⟨⟨hdt, htt⟩, hst⟩ := hcond
      -- now compute the parse
      rw [parseCalendarEvent]
      simp only [hkM, hgd, hgt, hgs, hdt, htt, hst, hgsum, hgimg, hgg, hgloc, hght, hgr,
        hga, hge, hgp]
      simp only [show ((31922 : Nat) ≠ 31922 && (31922 : Nat) ≠ 31923) = false by decide,
        Bool.false_eq_true, if_false, Bool.not_true, Bool.or_self, if_pos rfl,
        Option.getD_some]
      rw [parse_pTag_list e.participants hpart]
      simp [mergePartial, serializeCalendarEvent, ht]
  case timeBased =>
    have hstz : stz ≠ some "" := (htzs st en stz etz ht).1
    have hetz : etz ≠ some "" := (htzs st en stz etz ht).2
    have hkM : (mergePartial (serializeCalendarEvent e) i p c).kind = 31923 := by
      show (serializeCalendarEvent e).kind = 31923
      simp [serializeCalendarEvent, CalendarEvent.kind, ht]
    have htags : (mergePartial (serializeCalendarEvent e) i p c).tags =
        commonTags e ++ timingTags (.timeBased st en stz etz) := by
      show commonTags e ++ timingTags e.timing = _
      rw [ht]
    have hgd : getTagValue (mergePartial (serializeCalendarEvent e) i p c) "d" = some e.d := by
      rw [getTagValue, htags, serialLookup_d]
    have hgt : getTagValue (mergePartial (serializeCalendarEvent e) i p c) "title" = some e.title := by
      rw [getTagValue, htags, serialLookup_title]
    have hgs : getTagValue (mergePartial (serializeCalendarEvent e) i p c) "start" =
        some (jsNumToString st) := by
      rw [getTagValue, htags, serialLookup_start_time]
    have hge : getTagValue (mergePartial (serializeCalendarEvent e) i p c) "end" =
        en.map jsNumToString := by
      rw [getTagValue, htags, serialLookup_end_time]
    have hgstz : getTagValue (mergePartial (serializeCalendarEvent e) i p c) "start_tzid" = stz := by
      rw [getTagValue, htags, serialLookup_stz]
      exact optTruthy_if_eq hstz
    have hgetz : getTagValue (mergePartial (serializeCalendarEvent e) i p c) "end_tzid" = etz := by
      rw [getTagValue, htags, serialLookup_etz]
      exact optTruthy_if_eq hetz
    have hgsum : getTagValue (mergePartial (serializeCalendarEvent e) i p c) "summary" = e.summary := by
      rw [getTagValue, htags, serialLookup_summary]
      exact optTruthy_if_eq hsum
    have hgimg : getTagValue (mergePartial (serializeCalendarEvent e) i p c) "image" = e.image := by
      rw [getTagValue, htags, serialLookup_image]
      exact optTruthy_if_eq himg
    have hgg : getTagValue (mergePartial (serializeCalendarEvent e) i p c) "g" = e.geohash := by
      rw [getTagValue, htags, serialLookup_g]
      exact optTruthy_if_eq hgeo
    have hgloc : getTagValues (mergePartial (serializeCalendarEvent e) i p c) "location" = e.locations := by
      rw [getTagValues, htags, serialValues_location]
    have hght : getTagValues (mergePartial (serializeCalendarEvent e) i p c) "t" = e.hashtags := by
      rw [getTagValues, htags, serialValues_t]
    have hgr : getTagValues (mergePartial (serializeCalendarEvent e) i p c) "r" = e.references := by
      rw [getTagValues, htags, serialValues_r]
    have hga : getTagValues (mergePartial (serializeCalendarEvent e) i p c) "a" = e.calendarRefs := by
      rw [getTagValues, htags, serialValues_a]
    have hgp : (mergePartial (serializeCalendarEvent e) i p c).tags.filter
        (fun t => t.head? = some "p") = e.participants.map pTag := by
      rw [htags, serialFilter_p]
    have hstne : optTruthy (some (jsNumToString st)) = true := by
      simp [optTruthy, jsNumToString_ne_empty st]
    rw [validateCalendarEvent] at hval
    simp only [hkM, hgd, hgt, hgs, hge, hgstz, hgetz, hstne, Option.getD_some,
      jsParseInt_jsNumToString] at hval
    split at hval
    · exact absurd hval (by simp)
    · split at hval
      · exact absurd hval (by simp)
      · next hcond =>
        split at hval
        · next h32 => exact absurd h32 (by decide)
        · next hstpos =>
          split at hval
          · exact absurd hval (by simp)
          · next hendok =>
            rw [Bool.not_eq_true] at hcond
            simp only [Bool.or_eq_false_iff, Bool.not_eq_false'] at hcond
            obtain ⟨⟨hdt, htt⟩, _⟩ := hcond
            have hvend : ∀ v, en = some v → v ≠ 0 := by
              intro v hv
              rw [hv] at hval
              simp only [Option.map_some, optTruthy, Option.getD_some,
                jsParseInt_jsNumToString] at hval
              by_cases hv0 : v ≤ 0
              · simp [jsNumToString_ne_empty v, jsParseInt_jsNumToString, hv0] at hval
              · omega
            rw [parseCalendarEvent]
            simp only [hkM, hgd, hgt, hgs, hge, hgstz, hgetz, hgsum, hgimg, hgg, hgloc,
              hght, hgr, hga, hgp, hdt, htt, hstne]
            simp only [show ((31923 : Nat) ≠ 31922 && (31923 : Nat) ≠ 31923) = false by decide,
              Bool.false_eq_true, if_false, Bool.not_true, Bool.or_self,
              show ((31923 : Nat) = 31922) = False by simp, if_pos rfl,
              Option.getD_some, jsParseInt_jsNumToString]
            rw [parse_pTag_list e.participants hpart]
            have hendVal : (match (if optTruthy (Option.map jsNumToString en) = true then
                  jsParseInt ((Option.map jsNumToString en).getD "") else none) with
                | some v => if v = 0 then none else some v
                | none => none) = en := by
              cases en with
              | none => rfl
              | some v =>
                simp [Option.map_some, optTruthy, jsNumToString_ne_empty v,
                  jsParseInt_jsNumToString, hvend v rfl]
            rw [hendVal]
            simp [mergePartial, serializeCalendarEvent, ht]

/-- Claim C1 (counterexample): a calendar event whose participant carries a
role but no relay URL satisfies the Validator after serialization, yet the
parse of its serialization returns the role in the relayUrl field and no
role, so the round trip does not restore the participants field. -/
theorem c1_roundtrip_counterexample :
    validateCalendarEvent (fun _ => true)
      (mergePartial (serializeCalendarEvent c1Event) "i" "p" 5) = true ∧
    (parseCalendarEvent (mergePartial (serializeCalendarEvent c1Event) "i" "p" 5)).map
      CalendarEvent.participants =
      some [{ pubkey := "pk1", relayUrl := some "speaker", role := none }] ∧
    (parseCalendarEvent (mergePartial (serializeCalendarEvent c1Event) "i" "p" 5)).map
      CalendarEvent.participants ≠ some c1Event.participants := by
  exact ⟨by decide, by decide, by decide⟩

/-- Claim C1 (witness): the amended round trip evaluated on a concrete
time-based event with summary, image, locations, geohash, participants,
hashtags, references, calendar references, end and start timezone. -/
theorem c1_roundtrip_amended_witness :
    parseCalendarEvent (mergePartial (serializeCalendarEvent c1WitnessEvent) "nid" "npk" 77) =
      some { c1WitnessEvent with id := "nid", pubkey := "npk", created_at := 77, tags := (serializeCalendarEvent c1WitnessEvent).tags } :=
  c1_roundtrip_amended c1WitnessEvent (fun _ => true) "nid" "npk" 77 (by decide)
    (by decide) (by decide) (by decide) (by decide)
    (by
      intro s en h
      rw [show c1WitnessEvent.timing = EventTiming.timeBased 1717200000 (some 1717203600)
        (some "Europe/Berlin") none from rfl] at h
      exact absurd h (by simp))
    (by
      intro st en stz etz h
      rw [show c1WitnessEvent.timing = EventTiming.timeBased 1717200000 (some 1717203600)
        (some "Europe/Berlin") none from rfl] at h
      injection h with h1 h2 h3 h4
      subst h3
      subst h4
      exact ⟨by decide, by decide⟩)

/-- Claim C3 (code bug): the RSVP validator is not total.  On a kind-31925
event whose first a tag has no second element, aTag[1] is undefined and
the call to split raises a TypeError instead of returning false, although
the function's contract is to return a boolean for every raw event. -/
theorem c3_rsvp_validator_throws :
    validateCalendarEventRSVP c3BadRSVP = .error "TypeError: aValue is undefined" := rfl

/-- Claim C4: a kind-31925 event whose status tag value is declined and
that carries any tag with first element fb is rejected by
validateCalendarEventRSVP, whatever the fb value, and the rejection is the
boolean false rather than an error. -/
theorem c4_declined_fb_invalid (event : NostrEvent) (hk : event.kind = 31925)
    (hs : getTagValue event "status" = some "declined")
    (hfb : ∃ tag ∈ event.tags, tag.head? = some "fb") :
    validateCalendarEventRSVP event = .ok false := by
  have hfb' : (event.tags.find? (fun tag => tag.head? = some "fb")).isSome = true := by
    rw [List.find?_isSome]
    obtain ⟨tag, hmem, hhead⟩ := hfb
    exact ⟨tag, hmem, by simp [hhead]⟩
  simp only [validateCalendarEventRSVP, hk, hs]
  simp [hfb', optTruthy]

/-- Claim C4 (witness): the specification's concrete declined-with-fb
scenario evaluates to a plain false. -/
theorem c4_declined_fb_invalid_witness : validateCalendarEventRSVP c4Rsvp = .ok false :=
  c4_declined_fb_invalid c4Rsvp rfl (by decide) ⟨["fb", "busy"], by decide, by decide⟩

/-- Claim C5: for a kind-31923 raw event with d, title and start values
present, an unparsable start makes parseCalendarEvent drop the whole
event, while an unparsable end only drops the end field and the event is
kept as a time-based event with an absent end. -/
theorem c5_parse_start_end_asymmetry (event : NostrEvent) (hk : event.kind = 31923)
    (hd : optTruthy (getTagValue event "d") = true)
    (ht : optTruthy (getTagValue event "title") = true)
    (s : String) (hs : getTagValue event "start" = some s) :
    (jsParseInt s = none → parseCalendarEvent event = none) ∧
    (∀ startTime : Int, jsParseInt s = some startTime →
      ∀ endValue : String, getTagValue event "end" = some endValue →
        jsParseInt endValue = none →
        (parseCalendarEvent event).map CalendarEvent.timing =
          some (.timeBased startTime none
            (getTagValue event "start_tzid") (getTagValue event "end_tzid"))) := by
  constructor
  · intro hnone
    simp only [parseCalendarEvent, hk, hd, ht, hs]
    by_cases hse : s = ""
    · simp [optTruthy, hse]
    · simp only [optTruthy, hse, decide_not, Bool.not_true, Bool.or_false, Bool.not_false,
        Bool.or_self, Bool.and_self]
      simp [hse, Option.getD_some, hnone]
  · intro startTime hst endValue hev hevnone
    have hse : s ≠ "" := by
      intro hcon
      rw [hcon] at hst
      simp [jsParseInt] at hst
    simp only [parseCalendarEvent, hk, hd, ht, hs, hev]
    simp only [show ((31923 : Nat) ≠ 31922 && (31923 : Nat) ≠ 31923) = false by decide,
      Bool.false_eq_true, if_false, show ((31923 : Nat) = 31922) = False by simp,
      Option.getD_some]
    by_cases heve : endValue = ""
    · simp [optTruthy, hse, heve, hst, CalendarEvent.kind]
    · simp [optTruthy, hse, heve, hst, hevnone, CalendarEvent.kind]

/-- Claim C5 (witness): a concrete unparsable start drops the event; a
concrete unparsable end keeps the event with no end. -/
theorem c5_parse_start_end_asymmetry_witness :
    parseCalendarEvent c5StartBad = none ∧
    (parseCalendarEvent c5EndBad).map CalendarEvent.timing =
      some (.timeBased 100 none none none) := by
  constructor
  · exact (c5_parse_start_end_asymmetry c5StartBad rfl (by decide) (by decide)
      "xyz" (by decide)).1 (by decide)
  · exact (c5_parse_start_end_asymmetry c5EndBad rfl (by decide) (by decide)
      "100" (by decide)).2 100 (by decide) "oops" (by decide) (by decide)

/-- Claim C6 (counterexample): the upcoming-sort comparator converts a
date-based start to midnight UTC of that day, not to the start of the day
in the observer's local zone: for an observer one hour east of UTC the
specified comparison yields -3600 where the code computes 0. -/
theorem c6_mixed_compare_counterexample :
    upcomingCompare c6DateEvent c6TimeEvent = 0 ∧
    specLocalCompare 3600 c6DateEvent c6TimeEvent = some (-3600) ∧
    specLocalCompare 3600 c6DateEvent c6TimeEvent ≠
      some (upcomingCompare c6DateEvent c6TimeEvent) := by
  exact ⟨by decide, by decide, by decide⟩

/-- Claim C6 (amended): when a date-based event is compared to a
time-based one, the comparator converts the date-based start through
ECMAScript date-only parsing, which is the Unix timestamp of midnight UTC
of that calendar day (a multiple of 86400), and compares numerically; the
specification's local-zone description is accurate exactly for an
observer at UTC offset zero. -/
theorem c6_mixed_compare_amended (a b : CalendarEvent) (sa : String)
    (ena : Option String) (sb : Int) (enb : Option Int) (stz etz : Option String)
    (hta : a.timing = .dateBased sa ena) (htb : b.timing = .timeBased sb enb stz etz)
    (t : Int) (hparse : jsDateParse sa = some t) :
    upcomingCompare a b = t - sb ∧
    t % 86400 = 0 ∧
    specLocalCompare 0 a b = some (upcomingCompare a b) := by
  have hmod : t % 86400 = 0 := by
    rcases hsa : sa.data with _ | ⟨y1, rest⟩
    · rw [jsDateParse, hsa] at hparse
      simp at hparse
    · rw [jsDateParse, hsa] at hparse
      rcases rest with _ | ⟨y2, _ | ⟨y3, _ | ⟨y4, _ | ⟨h1, _ | ⟨m1, _ | ⟨m2, _ |
        ⟨h2, _ | ⟨d1, _ | ⟨d2, _ | ⟨x, xs⟩⟩⟩⟩⟩⟩⟩⟩⟩⟩ <;> try simp at hparse
      omega
  refine ⟨?_, hmod, ?_⟩
  · rw [upcomingCompare, hta, htb]
    simp [hparse]
  · rw [upcomingCompare, specLocalCompare, hta, htb]
    simp [hparse]

/-- Claim C6 (witness): the amended comparator relation evaluated on the
concrete dates 1970-01-03 and timestamp 86400. -/
theorem c6_mixed_compare_amended_witness :
    upcomingCompare c6DateEvent2 c6TimeEvent = 172800 - 86400 ∧
    (172800 : Int) % 86400 = 0 ∧
    specLocalCompare 0 c6DateEvent2 c6TimeEvent = some (upcomingCompare c6DateEvent2 c6TimeEvent) :=
  c6_mixed_compare_amended c6DateEvent2 c6TimeEvent "1970-01-03" none 86400 none none none
    rfl rfl 172800 (by decide)

/-- Claim C9 (counterexample): when two different events share an id, the
search dedup keeps the object of the last occurrence, not the first: a
later event with the same id replaces the earlier one in the map. -/
theorem c9_dedup_counterexample :
    searchCombine [c9Event1] [c9Event2] = [c9Event2] ∧
    c9Event2 ≠ c9Event1 ∧
    searchCombine [c9Event1] [c9Event2] ≠ [c9Event1] := by
  exact ⟨by decide, by decide, by decide⟩

/-- Claim C2 (counterexample): chaining the upcoming-events cursor can
re-return an event.  With two time-based events whose start order is the
reverse of their creation order, the first page is sorted by start, its
cursor is taken from the newest creation time, and the older event
reappears on the second page. -/
theorem c2_pagination_counterexample :
    upcomingPage c2Db (fun _ => true) 0 "2100-01-01" 10 none = [c2ParsedB, c2ParsedA] ∧
    getNextPageParam (upcomingPage c2Db (fun _ => true) 0 "2100-01-01" 10 none) = some 99 ∧
    upcomingPage c2Db (fun _ => true) 0 "2100-01-01" 10 (some 99) = [c2ParsedB] ∧
    c2ParsedB ∈ upcomingPage c2Db (fun _ => true) 0 "2100-01-01" 10 none ∧
    c2ParsedB ∈ upcomingPage c2Db (fun _ => true) 0 "2100-01-01" 10 (some 99) := by
  refine ⟨by decide, by decide, by decide, by decide, by decide⟩

/-- Claim C10: parseCalendarEvent enforces strictly less than the
Validator.  Its success is exactly: the kind is 31922 or 31923, the d,
title and start values are truthy, and for kind 31923 the start value
parses; there is no date-format, positivity, end-after-start or timezone
check.  Consequently a kind-31922 event with a malformed start date, a
kind-31923 event with a non-positive start, and a kind-31923 event whose
end precedes its start are all rejected by validateCalendarEvent under
every timezone database yet parsed to a domain object. -/
theorem c10_parse_weaker_than_validator :
    (∀ event : NostrEvent, (parseCalendarEvent event).isSome =
      ((event.kind == 31922 || event.kind == 31923) &&
        optTruthy (getTagValue event "d") && optTruthy (getTagValue event "title") &&
        optTruthy (getTagValue event "start") &&
        (!(event.kind == 31923) || (jsParseInt ((getTagValue event "start").getD "")).isSome))) ∧
    (∀ tzOk, validateCalendarEvent tzOk c10BadDate = false) ∧
    (parseCalendarEvent c10BadDate).isSome = true ∧
    (∀ tzOk, validateCalendarEvent tzOk c10NonPositive = false) ∧
    (parseCalendarEvent c10NonPositive).isSome = true ∧
    (∀ tzOk, validateCalendarEvent tzOk c10EndBeforeStart = false) ∧
    (parseCalendarEvent c10EndBeforeStart).isSome = true := by
  refine ⟨?_, fun _ => rfl, by decide, fun _ => rfl, by decide, fun _ => rfl, by decide⟩
  intro event
  by_cases hk : (event.kind ≠ 31922 && event.kind ≠ 31923) = true
  · have hrhs : (event.kind == 31922 || event.kind == 31923) = false := by
      simp only [Bool.and_eq_true, ne_eq, decide_eq_true_eq] at hk
      simp [hk.1, hk.2]
    have hparse : parseCalendarEvent event = none := by
      simp only [parseCalendarEvent]
      rw [if_pos hk]
    rw [hparse, hrhs]
    simp
  · have hk' : event.kind = 31922 ∨ event.kind = 31923 := by
      simp only [Bool.and_eq_true, ne_eq, decide_eq_true_eq] at hk
      by_cases h22 : event.kind = 31922
      · exact Or.inl h22
      · exact Or.inr (by tauto)
    rcases hk' with h22 | h23
    · simp only [parseCalendarEvent, h22]
      simp only [show ((31922 : Nat) ≠ 31922 && (31922 : Nat) ≠ 31923) = false by decide,
        Bool.false_eq_true, if_false, if_pos rfl]
      cases hd : optTruthy (getTagValue event "d") <;>
        cases htl : optTruthy (getTagValue event "title") <;>
          cases hst : optTruthy (getTagValue event "start") <;>
            simp [hd, htl, hst]
    · simp only [parseCalendarEvent, h23]
      simp only [show ((31923 : Nat) ≠ 31922 && (31923 : Nat) ≠ 31923) = false by decide,
        Bool.false_eq_true, if_false, show ((31923 : Nat) = 31922) = False by simp]
      cases hd : optTruthy (getTagValue event "d") <;>
        cases htl : optTruthy (getTagValue event "title") <;>
          cases hst : optTruthy (getTagValue event "start") <;>
            cases hp : jsParseInt ((getTagValue event "start").getD "") <;>
              simp [hd, htl, hst, hp]

theorem parse_time_end_nonzero {raw : NostrEvent} {e : CalendarEvent}
    (hp : parseCalendarEvent raw = some e) {s en : Int} {stz etz : Option String}
    (ht : e.timing = .timeBased s (some en) stz etz) : en ≠ 0 := by
  simp only [parseCalendarEvent] at hp
  split at hp
  · exact absurd hp (by simp)
  · split at hp
    · exact absurd hp (by simp)
    · split at hp
      · injection hp with hp'
        rw [← hp'] at ht
        simp at ht
      · split at hp
        · exact absurd hp (by simp)
        · injection hp with hp'
          rw [← hp'] at ht
          simp only [EventTiming.timeBased.injEq] at ht
          obtain ⟨_, hend, _, _⟩ := ht
          split at hend
          · next v hv =>
            split at hend
            · simp at hend
            · next hv0 =>
              rw [Option.some_inj] at hend
              omega
          · simp at hend

/-- Claim C7: on validated-and-parsed events the date-range filter is
exactly the overlap test the specification describes: a time-based event
with an end is kept when it starts at or before the range end and ends at
or after the range start, a time-based event without an end is kept when
its start lies inside the range, and a date-based event runs the
identical tests on the YYYY-MM-DD strings; moreover the pipeline keeps
exactly the validated, parsed events satisfying this predicate. -/
theorem c7_date_range_filter (tzOk : String → Bool) (raw : NostrEvent) (e : CalendarEvent)
    (hv : validateCalendarEvent tzOk raw = true)
    (hp : parseCalendarEvent raw = some e)
    (startTimestamp endTimestamp : Int) (startIsoDate endIsoDate : String) :
    (∀ s en stz etz, e.timing = .timeBased s (some en) stz etz →
      inDateRange startTimestamp endTimestamp startIsoDate endIsoDate e =
        (decide (s ≤ endTimestamp) && decide (startTimestamp ≤ en))) ∧
    (∀ s stz etz, e.timing = .timeBased s none stz etz →
      inDateRange startTimestamp endTimestamp startIsoDate endIsoDate e =
        (decide (startTimestamp ≤ s) && decide (s ≤ endTimestamp))) ∧
    (∀ s en, e.timing = .dateBased s (some en) → en ≠ "" →
      inDateRange startTimestamp endTimestamp startIsoDate endIsoDate e =
        (strLeb s endIsoDate && strLeb startIsoDate en)) ∧
    (∀ s, e.timing = .dateBased s none →
      inDateRange startTimestamp endTimestamp startIsoDate endIsoDate e =
        (strLeb startIsoDate s && strLeb s endIsoDate)) ∧
    (∀ db, e ∈ calendarEventsByDateRange db tzOk startTimestamp endTimestamp
        startIsoDate endIsoDate →
      inDateRange startTimestamp endTimestamp startIsoDate endIsoDate e = true) ∧
    (∀ db, raw ∈ relayQuery db [31923] 100 none ++ relayQuery db [31922] 100 none →
      inDateRange startTimestamp endTimestamp startIsoDate endIsoDate e = true →
      e ∈ calendarEventsByDateRange db tzOk startTimestamp endTimestamp
        startIsoDate endIsoDate) := by
  refine ⟨?_, ?_, ?_, ?_, ?_, ?_⟩
  · intro s en stz etz htm
    have hnz : en ≠ 0 := parse_time_end_nonzero hp htm
    simp [inDateRange, htm, optIntTruthy, hnz]
  · intro s stz etz htm
    simp [inDateRange, htm, optIntTruthy]
  · intro s en htm hen
    simp [inDateRange, htm, optTruthy, hen]
  · intro s htm
    simp [inDateRange, htm, optTruthy]
  · intro db hm
    simp only [calendarEventsByDateRange] at hm
    exact (List.mem_filter.mp hm).2
  · intro db hmem hpred
    simp only [calendarEventsByDateRange]
    refine List.mem_filter.mpr ⟨?_, hpred⟩
    refine List.mem_filterMap.mpr ⟨raw, ?_, hp⟩
    exact List.mem_filter.mpr ⟨hmem, hv⟩

/-- Claim C7 (witness): the filter evaluated on a concrete validated and
parsed date-based event with an end inside a concrete range. -/
theorem c7_date_range_filter_witness :
    inDateRange 0 0 "2025-06-01" "2025-06-30" c7ParsedDate =
      (strLeb "2025-06-10" "2025-06-30" && strLeb "2025-06-01" "2025-06-12") :=
  (c7_date_range_filter (fun _ => true) c7RawDate c7ParsedDate (by decide) (by decide)
    0 0 "2025-06-01" "2025-06-30").2.2.1 "2025-06-10" "2025-06-12" rfl (by decide)

/-- Claim C8: serializeCalendarRSVP outputs a kind-31925 partial event
whose tags are, in order, the a-tag with the event coordinates, the
d-tag, the status tag, then an e-tag exactly when a non-empty event id
was supplied, then an fb-tag exactly when a free/busy value was supplied
and the status is not declined (a free/busy value on a declined RSVP is
silently dropped), then a p-tag exactly when a non-empty original-author
pubkey was supplied; the filter equations show no such tag appears
anywhere else in the output. -/
theorem c8_rsvp_serialize_tags (rsvp : CalendarEventRSVP) :
    (serializeCalendarRSVP rsvp).kind = 31925 ∧
    (serializeCalendarRSVP rsvp).content = rsvp.content ∧
    (serializeCalendarRSVP rsvp).tags.take 3 =
      [["a", rsvp.eventCoordinates], ["d", rsvp.d], ["status", rsvp.status.toTagValue]] ∧
    ((serializeCalendarRSVP rsvp).tags.filter (fun t => t.head? = some "e") =
      (match rsvp.eventId with
       | some s => if s = "" then [] else [["e", s]]
       | none => [])) ∧
    ((serializeCalendarRSVP rsvp).tags.filter (fun t => t.head? = some "fb") =
      (match rsvp.freebusy with
       | some fb => if rsvp.status = .declined then [] else [["fb", fb.toTagValue]]
       | none => [])) ∧
    ((serializeCalendarRSVP rsvp).tags.filter (fun t => t.head? = some "p") =
      (match rsvp.authorPubkey with
       | some s => if s = "" then [] else [["p", s]]
       | none => [])) ∧
    (serializeCalendarRSVP rsvp).tags =
      [["a", rsvp.eventCoordinates], ["d", rsvp.d], ["status", rsvp.status.toTagValue]]
        ++ (match rsvp.eventId with
            | some s => if s = "" then [] else [["e", s]]
            | none => [])
        ++ (match rsvp.freebusy with
            | some fb => if rsvp.status = .declined then [] else [["fb", fb.toTagValue]]
            | none => [])
        ++ (match rsvp.authorPubkey with
            | some s => if s = "" then [] else [["p", s]]
            | none => []) := by
  have hstatus : rsvp.status.toTagValue ≠ "e" ∧ rsvp.status.toTagValue ≠ "fb" ∧
      rsvp.status.toTagValue ≠ "p" := by
    cases rsvp.status <;> exact ⟨by decide, by decide, by decide⟩
  refine ⟨rfl, rfl, ?_, ?_, ?_, ?_, rfl⟩
  · rcases rsvp.eventId with _ | s
    · rfl
    · by_cases hs : s = "" <;> simp [serializeCalendarRSVP, hs]
  · simp only [serializeCalendarRSVP, List.filter_append]
    rcases he : rsvp.eventId with _ | s <;>
      rcases hfb : rsvp.freebusy with _ | fb <;>
        rcases hp : rsvp.authorPubkey with _ | pk <;>
          cases hst : rsvp.status <;>
            simp_all [FreeBusy.toTagValue, RSVPStatus.toTagValue] <;>
              (try by_cases hs : s = "") <;> (try by_cases hpk : pk = "") <;>
                simp_all [FreeBusy.toTagValue]
  · simp only [serializeCalendarRSVP, List.filter_append]
    rcases he : rsvp.eventId with _ | s <;>
      rcases hfb : rsvp.freebusy with _ | fb <;>
        rcases hp : rsvp.authorPubkey with _ | pk <;>
          cases hst : rsvp.status <;>
            simp_all [FreeBusy.toTagValue, RSVPStatus.toTagValue] <;>
              (try by_cases hs : s = "") <;> (try by_cases hpk : pk = "") <;>
                simp_all [FreeBusy.toTagValue]
  · simp only [serializeCalendarRSVP, List.filter_append]
    rcases he : rsvp.eventId with _ | s <;>
      rcases hfb : rsvp.freebusy with _ | fb <;>
        rcases hp : rsvp.authorPubkey with _ | pk <;>
          cases hst : rsvp.status <;>
            simp_all [FreeBusy.toTagValue, RSVPStatus.toTagValue] <;>
              (try by_cases hs : s = "") <;> (try by_cases hpk : pk = "") <;>
                simp_all [FreeBusy.toTagValue]

theorem parse_created_at {raw : NostrEvent} {e : CalendarEvent}
    (hp : parseCalendarEvent raw = some e) : e.created_at = raw.created_at := by
  simp only [parseCalendarEvent] at hp
  split at hp
  · exact absurd hp (by simp)
  · split at hp
    · exact absurd hp (by simp)
    · split at hp
      · injection hp with hp'
        rw [← hp']
      · split at hp
        · exact absurd hp (by simp)
        · injection hp with hp'
          rw [← hp']

theorem mem_jsSort {α : Type} {cmp : α → α → Int} {l : List α} {x : α} :
    x ∈ jsSort cmp l ↔ x ∈ l :=
  (List.perm_insertionSort _ l).mem_iff

theorem relayQuery_until_bound {db : List NostrEvent} {kinds : List Nat} {limit : Nat}
    {u : Int} {raw : NostrEvent} (h : raw ∈ relayQuery db kinds limit (some u)) :
    raw.created_at ≤ u := by
  unfold relayQuery at h
  have h2 := (List.mem_filter.mp (List.take_subset _ _ h)).2
  simp only [Bool.and_eq_true, decide_eq_true_eq] at h2
  exact h2.2

/-- Claim C2 (amended): chaining the upcoming-events cursor guarantees
only a creation-time bound, not absence of repeats.  Every event of a
cursor page was created at or before the cursor; an empty page yields no
next cursor, ending pagination; and the next cursor is strictly below
the creation time of the page's last item, so that item in particular
can never reappear on the following page.  Events other than the last
item may reappear, as the counterexample shows. -/
theorem c2_pagination_amended :
    (∀ db tzOk now today limit cursor e, cursor ≠ 0 →
      e ∈ upcomingPage db tzOk now today limit (some cursor) → e.created_at ≤ cursor) ∧
    getNextPageParam [] = none ∧
    (∀ db tzOk now today limit pageParam cursor lastItem,
      (upcomingPage db tzOk now today limit pageParam).getLast? = some lastItem →
      getNextPageParam (upcomingPage db tzOk now today limit pageParam) = some cursor →
      cursor < lastItem.created_at ∧
        (cursor ≠ 0 → ∀ now2 today2,
          lastItem ∉ upcomingPage db tzOk now2 today2 limit (some cursor))) := by
  have key : ∀ (db : List NostrEvent) (tzOk : String → Bool) (now : Int) (today : String)
      (limit : Nat) (cursor : Int) (e : CalendarEvent), cursor ≠ 0 →
      e ∈ upcomingPage db tzOk now today limit (some cursor) → e.created_at ≤ cursor := by
    intro db tzOk now today limit cursor e hc hmem
    simp only [upcomingPage, optIntTruthy] at hmem
    rw [if_pos (by simp [hc])] at hmem
    rw [mem_jsSort] at hmem
    obtain hmem2 := (List.mem_filter.mp hmem).1
    obtain ⟨raw, hrawmem, hparse⟩ := List.mem_filterMap.mp hmem2
    have hrm := (List.mem_filter.mp hrawmem).1
    rw [parse_created_at hparse]
    rcases List.mem_append.mp hrm with h | h
    · exact relayQuery_until_bound h
    · exact relayQuery_until_bound h
  refine ⟨key, rfl, ?_⟩
  intro db tzOk now today limit pageParam cursor lastItem hlast hnext
  rw [getNextPageParam, hlast] at hnext
  rw [Option.some_inj] at hnext
  constructor
  · omega
  · intro hc now2 today2 hmem
    have := key db tzOk now2 today2 limit cursor lastItem hc hmem
    omega

/-- Claim C2 (witness): on the concrete two-event store, the last item of
the first page does not reappear on the cursor page. -/
theorem c2_pagination_amended_witness :
    c2ParsedA ∉ upcomingPage c2Db (fun _ => true) 0 "2100-01-01" 10 (some 99) := by
  have h := c2_pagination_amended.2.2 c2Db (fun _ => true) 0 "2100-01-01" 10 none 99
    c2ParsedA (by decide) (by decide)
  exact h.2 (by decide) 0 "2100-01-01"

theorem mapSet_keys (m : List (String × CalendarEvent)) (k : String) (v : CalendarEvent) :
    (mapSet m k v).map Prod.fst =
      if m.any (fun p => p.1 == k) then m.map Prod.fst else m.map Prod.fst ++ [k] := by
  unfold mapSet
  split
  · next hany =>
    rw [List.map_map]
    refine List.map_congr_left ?_
    intro p _
    by_cases hp : (p.1 == k) = true
    · simp only [Function.comp, hp, if_true]
      exact (eq_of_beq hp).symm
    · simp [Function.comp, hp]
  · next hany =>
    simp

theorem find?_mapSet (m : List (String × CalendarEvent)) (k : String) (v : CalendarEvent)
    (k' : String) :
    (mapSet m k v).find? (fun p => p.1 == k') =
      if k' = k then some (k, v) else m.find? (fun p => p.1 == k') := by
  unfold mapSet
  split
  · next hany =>
    have hpred : ((fun p : String × CalendarEvent => p.1 == k') ∘
        (fun p => if p.1 == k then (k, v) else p)) = (fun p => p.1 == k') := by
      funext p
      by_cases hp : (p.1 == k) = true
      · simp only [Function.comp, hp, if_true]
        rw [eq_of_beq hp]
      · simp [Function.comp, hp]
    rw [List.find?_map, hpred]
    by_cases hk : k' = k
    · subst hk
      obtain ⟨p0, hp0mem, hp0⟩ := List.any_eq_true.mp hany
      obtain ⟨q, hqfind⟩ : ∃ q, m.find? (fun p => p.1 == k') = some q := by
        have hsome : (m.find? (fun p => p.1 == k')).isSome = true := by
          rw [List.find?_isSome]
          exact ⟨p0, hp0mem, hp0⟩
        exact Option.isSome_iff_exists.mp hsome
      have hq := List.find?_some hqfind
      rw [if_pos rfl, hqfind]
      show some (if (q.1 == k') = true then (k', v) else q) = some (k', v)
      rw [if_pos hq]
    · rw [if_neg hk]
      cases hfind : m.find? (fun p => p.1 == k') with
      | none => simp
      | some q =>
        have hq := List.find?_some hfind
        have hqk : (q.1 == k) = false := by
          rw [eq_of_beq hq]
          exact beq_eq_false_iff_ne.mpr hk
        show some (if (q.1 == k) = true then (k, v) else q) = some q
        rw [if_neg (by simp [hqk])]
  · next hany =>
    rw [List.find?_append]
    by_cases hk : k' = k
    · subst hk
      have hnone : m.find? (fun p => p.1 == k') = none := by
        rw [List.find?_eq_none]
        intro p hp hcon
        exact hany (List.any_eq_true.mpr ⟨p, hp, hcon⟩)
      rw [if_pos rfl, hnone]
      simp [List.find?]
    · rw [if_neg hk]
      cases hfind : m.find? (fun p => p.1 == k') with
      | none =>
        simp [List.find?, show (k == k') = false from beq_eq_false_iff_ne.mpr (Ne.symm hk)]
      | some q =>
        simp

theorem jsMapInsertAll_cons (m : List (String × CalendarEvent))
    (p : String × CalendarEvent) (ps : List (String × CalendarEvent)) :
    jsMapInsertAll m (p :: ps) = jsMapInsertAll (mapSet m p.1 p.2) ps := rfl

theorem find?_jsMapInsertAll (l : List (String × CalendarEvent)) :
    ∀ (m : List (String × CalendarEvent)) (k : String),
    (jsMapInsertAll m l).find? (fun p => p.1 == k) =
      (match (l.filter (fun p => p.1 == k)).getLast? with
       | some q => some (k, q.2)
       | none => m.find? (fun p => p.1 == k)) := by
  induction l with
  | nil => intro m k; rfl
  | cons p ps ih =>
    intro m k
    rw [jsMapInsertAll_cons, ih]
    by_cases hk : (p.1 == k) = true
    · rw [List.filter_cons]
      rw [hk, if_pos rfl]
      cases hlast : (ps.filter (fun q => q.1 == k)).getLast? with
      | some q =>
        rw [List.getLast?_cons, hlast]
        simp
      | none =>
        rw [List.getLast?_cons, hlast]
        simp only [Option.getD_none]
        rw [find?_mapSet]
        simp [eq_of_beq hk]
    · rw [List.filter_cons]
      rw [show (p.1 == k) = false from Bool.not_eq_true _ |>.mp hk, if_neg (by simp)]
      cases hlast : (ps.filter (fun q => q.1 == k)).getLast? with
      | some q => rfl
      | none =>
        rw [find?_mapSet]
        rw [if_neg (fun hcon => by simp [hcon, beq_eq_false_iff_ne] at hk)]

theorem keys_jsMapInsertAll (l : List (String × CalendarEvent)) :
    ∀ m : List (String × CalendarEvent),
    (jsMapInsertAll m l).map Prod.fst =
      m.map Prod.fst ++ firstOccAux (m.map Prod.fst) (l.map Prod.fst) := by
  induction l with
  | nil => intro m; simp [jsMapInsertAll, firstOccAux]
  | cons p ps ih =>
    intro m
    rw [jsMapInsertAll_cons, ih]
    have hany : (m.map Prod.fst).any (fun x => x == p.1) = m.any (fun q => q.1 == p.1) := by
      induction m with
      | nil => rfl
      | cons q qs ihm => simp [List.any_cons, ihm]
    show _ = m.map Prod.fst ++ firstOccAux (m.map Prod.fst) (p.1 :: ps.map Prod.fst)
    rw [firstOccAux]
    by_cases hmem : m.any (fun q => q.1 == p.1) = true
    · rw [if_pos (by rw [hany]; exact hmem)]
      rw [mapSet_keys, if_pos hmem]
    · rw [if_neg (by rw [hany]; exact hmem)]
      rw [mapSet_keys, if_neg hmem]
      simp [List.append_assoc]

theorem firstOccAux_not_seen :
    ∀ (ids seen : List String) (x : String), x ∈ firstOccAux seen ids →
      seen.any (fun y => y == x) = false := by
  intro ids
  induction ids with
  | nil => intro seen x hx; simp [firstOccAux] at hx
  | cons k ks ih =>
    intro seen x hx
    rw [firstOccAux] at hx
    split at hx
    · exact ih seen x hx
    · next hnk =>
      rcases List.mem_cons.mp hx with rfl | hx2
      · simp only [Bool.not_eq_true] at hnk
        exact hnk
      · have h2 := ih (seen ++ [k]) x hx2
        rw [List.any_append] at h2
        exact Bool.or_eq_false_iff.mp h2 |>.1

theorem firstOccAux_nodup : ∀ (ids seen : List String), (firstOccAux seen ids).Nodup := by
  intro ids
  induction ids with
  | nil => intro seen; simp [firstOccAux]
  | cons k ks ih =>
    intro seen
    rw [firstOccAux]
    split
    · exact ih seen
    · refine List.nodup_cons.mpr ⟨?_, ih (seen ++ [k])⟩
      intro hmem
      have h2 := firstOccAux_not_seen ks (seen ++ [k]) k hmem
      rw [List.any_append] at h2
      have h3 := Bool.or_eq_false_iff.mp h2 |>.2
      simp at h3

theorem jsMapInsertAll_entry_id :
    ∀ (l m : List (String × CalendarEvent)), (∀ p ∈ l, p.1 = p.2.id) →
      (∀ p ∈ m, p.1 = p.2.id) → ∀ p ∈ jsMapInsertAll m l, p.1 = p.2.id := by
  intro l
  induction l with
  | nil =>
    intro m _ hm p hp
    exact hm p hp
  | cons q qs ih =>
    intro m hl hm p hp
    rw [jsMapInsertAll_cons] at hp
    refine ih (mapSet m q.1 q.2) (fun r hr => hl r (List.mem_cons_of_mem q hr)) ?_ p hp
    intro r hr
    unfold mapSet at hr
    split at hr
    · rcases List.mem_map.mp hr with ⟨r0, hr0, rfl⟩
      by_cases h0 : (r0.1 == q.1) = true
      · simp only [h0, if_true]
        exact hl q (List.mem_cons_self q qs)
      · simp only [h0, Bool.false_eq_true, if_false]
        exact hm r0 hr0
    · rcases List.mem_append.mp hr with h1 | h2
      · exact hm r h1
      · simp only [List.mem_singleton] at h2
        subst h2
        exact hl q (List.mem_cons_self q qs)

theorem find?_of_mem_nodup_keys :
    ∀ (m : List (String × CalendarEvent)), (m.map Prod.fst).Nodup →
      ∀ p ∈ m, m.find? (fun r => r.1 == p.1) = some p := by
  intro m
  induction m with
  | nil =>
    intro _ p hp
    simp at hp
  | cons q qs ih =>
    intro hnd p hp
    rw [List.map_cons] at hnd
    have hnd2 := List.nodup_cons.mp hnd
    rcases List.mem_cons.mp hp with rfl | hp2
    · have hself : (p.1 == p.1) = true := by simp
      simp [List.find?_cons, hself]
    · have hq : (q.1 == p.1) = false := by
        rw [beq_eq_false_iff_ne]
        intro hcon
        exact hnd2.1 (hcon ▸ (List.mem_map_of_mem Prod.fst hp2))
      simp only [List.find?_cons, hq, cond_false]
      exact ih hnd2.2 p hp2

/-- Claim C9 (amended): the search dedup yields each event id exactly
once, in the order of first occurrences; for each id the object kept is
the last occurrence of that id in the combined list (the first occurrence
only fixes the position).  When duplicate ids always carry equal events,
as when both result sets parse the same underlying raw events, this
coincides with keeping the first occurrence. -/
theorem c9_dedup_amended (hashtagEvents parsedEvents : List CalendarEvent) :
    ((searchCombine hashtagEvents parsedEvents).map CalendarEvent.id).Nodup ∧
    (searchCombine hashtagEvents parsedEvents).map CalendarEvent.id =
      firstOccAux [] ((hashtagEvents ++ parsedEvents).map CalendarEvent.id) ∧
    (∀ e ∈ searchCombine hashtagEvents parsedEvents,
      ((hashtagEvents ++ parsedEvents).filter (fun x => x.id == e.id)).getLast? =
        some e) := by
  have hpairs : ∀ p ∈ (hashtagEvents ++ parsedEvents).map (fun e => (e.id, e)),
      p.1 = p.2.id := by
    intro p hp
    rcases List.mem_map.mp hp with ⟨e, _, rfl⟩
    rfl
  have hentry : ∀ p ∈ jsMapInsertAll []
      ((hashtagEvents ++ parsedEvents).map (fun e => (e.id, e))), p.1 = p.2.id :=
    jsMapInsertAll_entry_id _ [] hpairs (by simp)
  have hkeysid : (jsMapInsertAll []
      ((hashtagEvents ++ parsedEvents).map (fun e => (e.id, e)))).map Prod.fst =
      firstOccAux [] ((hashtagEvents ++ parsedEvents).map CalendarEvent.id) := by
    rw [keys_jsMapInsertAll]
    simp only [List.map_nil, List.nil_append, List.map_map]
    rfl
  have hids : (searchCombine hashtagEvents parsedEvents).map CalendarEvent.id =
      firstOccAux [] ((hashtagEvents ++ parsedEvents).map CalendarEvent.id) := by
    rw [← hkeysid]
    show (List.map Prod.snd _).map CalendarEvent.id = _
    rw [List.map_map]
    exact List.map_congr_left (fun p hp => (hentry p hp).symm)
  refine ⟨?_, hids, ?_⟩
  · rw [hids]
    exact firstOccAux_nodup _ _
  · intro e he
    obtain ⟨p, hpmem, hp2⟩ := List.mem_map.mp he
    have hkid : p.1 = e.id := by
      rw [hentry p hpmem, hp2]
    have hnodupk : ((jsMapInsertAll []
        ((hashtagEvents ++ parsedEvents).map (fun e => (e.id, e)))).map Prod.fst).Nodup := by
      rw [hkeysid]
      exact firstOccAux_nodup _ _
    have hfind := find?_of_mem_nodup_keys _ hnodupk p hpmem
    rw [find?_jsMapInsertAll] at hfind
    rw [List.filter_map] at hfind
    have hcomp : ((fun r : String × CalendarEvent => r.1 == p.1) ∘ fun e => (e.id, e)) =
        (fun x => x.id == p.1) := rfl
    rw [hcomp] at hfind
    rw [List.getLast?_map] at hfind
    cases hlast : ((hashtagEvents ++ parsedEvents).filter (fun x => x.id == p.1)).getLast? with
    | none =>
      rw [hlast] at hfind
      exact Option.noConfusion hfind
    | some elast =>
      rw [hlast] at hfind
      have hpair : (p.1, elast) = p := Option.some_inj.mp hfind
      have hp2eq : p.2 = elast := by rw [← hpair]
      rw [← hkid, hlast, ← hp2, hp2eq]

/-- Claim C9 (witness): the amended dedup facts evaluated on the concrete
duplicate-id pair. -/
theorem c9_dedup_amended_witness :
    ((searchCombine [c9Event1] [c9Event2]).map CalendarEvent.id).Nodup ∧
    (([c9Event1] ++ [c9Event2]).filter (fun x => x.id == c9Event2.id)).getLast? =
      some c9Event2 := by
  have h := c9_dedup_amended [c9Event1] [c9Event2]
  exact ⟨h.1, h.2.2 c9Event2 (by decide)⟩
